import Mathlib

/-! Stm32DotMatrix: MAX7219 bit-banged driver.

Shallow embedding of `0-9counter.c` (namespace `ZeroNine`), of the uppercase
program of `A-Zcounter.c` (namespace `UpperAZ`) and of the lowercase program
that follows it in the same file (namespace `LowerAZ`).

The only observable effects of the driver are the stores to `GPIOA->BSRR` and the
executed `__NOP()` instructions, so the machine state records exactly these.
Machine integers are natural numbers, reduced modulo `2^8` / `2^32` where the C
code can overflow.
-/

namespace Stm32DotMatrix

/-! ## Machine state -/

/-- Observable machine state: the values stored to `GPIOA->BSRR`, oldest first,
and the number of `__NOP()` instructions executed. -/
structure Mcu where
  bsrr : List Nat
  nops : Nat
deriving DecidableEq, Repr

/-- The statement `GPIOA->BSRR = v;`. -/
def write (v : Nat) (s : Mcu) : Mcu :=
  { s with bsrr := s.bsrr ++ [v] }

/-- The statement `__NOP();`. -/
def nop (s : Mcu) : Mcu :=
  { s with nops := s.nops + 1 }

/-- The machine before any store and any no-operation. -/
def Mcu.reset : Mcu := { bsrr := [], nops := 0 }

/-! ## Register and pin numbers (identical `#define`s in the three programs) -/

def REG_NOOP : Nat := 0x00
def REG_DIGIT0 : Nat := 0x01
def REG_DIGIT1 : Nat := 0x02
def REG_DIGIT2 : Nat := 0x03
def REG_DIGIT3 : Nat := 0x04
def REG_DIGIT4 : Nat := 0x05
def REG_DIGIT5 : Nat := 0x06
def REG_DIGIT6 : Nat := 0x07
def REG_DIGIT7 : Nat := 0x08
def REG_DECODE_MODE : Nat := 0x09
def REG_INTENSITY : Nat := 0x0A
def REG_SCAN_LIMIT : Nat := 0x0B
def REG_SHUTDOWN : Nat := 0x0C
def REG_DISPLAY_TEST : Nat := 0x0F

def DIN_PIN : Nat := 0
def CS_PIN : Nat := 1
def CLK_PIN : Nat := 2

/-! ## `0-9counter.c` -/

namespace ZeroNine

/-- The body of `for (uint32_t i = 0; i < ms; i++) __NOP();` from counter value `i` on.
Because `i < ms` holds whenever `i` is incremented, `i + 1` never wraps. -/
def delay_loop (ms i : Nat) (s : Mcu) : Mcu :=
  if i < ms then delay_loop ms (i + 1) (nop s) else s
termination_by ms - i

/-- The function `delay`: `ms *= 4000` on a `uint32_t`, then the counting loop. -/
def delay (ms : Nat) (s : Mcu) : Mcu :=
  delay_loop ((ms * 4000) % 2 ^ 32) 0 s

/-- The loop of `send_byte` with `n` iterations left: clock low, data line from bit 7
of `data`, clock high, then `data <<= 1` on a `uint8_t`. -/
def send_byte_loop : Nat → Nat → Mcu → Mcu
  | 0, _, s => s
  | n + 1, data, s =>
    let s := write (1 <<< (CLK_PIN + 16)) s
    let s := if data &&& 0x80 ≠ 0 then write (1 <<< DIN_PIN) s
             else write (1 <<< (DIN_PIN + 16)) s
    let s := write (1 <<< CLK_PIN) s
    send_byte_loop n ((data <<< 1) % 256) s

/-- The function `send_byte`: eight iterations of the bit loop. -/
def send_byte (data : Nat) (s : Mcu) : Mcu :=
  send_byte_loop 8 data s

/-- The function `send_cmd`: chip-select low, register byte, data byte, chip-select high. -/
def send_cmd (reg data : Nat) (s : Mcu) : Mcu :=
  let s := write (1 <<< (CS_PIN + 16)) s
  let s := send_byte reg s
  let s := send_byte data s
  write (1 <<< CS_PIN) s

/-- The function `init_max7219`, the clearing loop `for (int i = 1; i <= 8; i++)` inlined as
in the source. -/
def init_max7219 (s : Mcu) : Mcu :=
  let s := send_cmd REG_DECODE_MODE 0x00 s
  let s := send_cmd REG_SCAN_LIMIT 0x07 s
  let s := send_cmd REG_INTENSITY 0x0A s
  let s := send_cmd REG_SHUTDOWN 0x01 s
  let s := send_cmd REG_DISPLAY_TEST 0x00 s
  (List.range' 1 8).foldl (fun s i => send_cmd i 0x00 s) s

/-- The table `digits[10][8]`. -/
def digits : List (List Nat) :=
  [ [0b00111100, 0b01000010, 0b01000010, 0b01000010, 0b01000010, 0b01000010, 0b01000010, 0b00111100],
    [0b00001000, 0b00011000, 0b00101000, 0b00001000, 0b00001000, 0b00001000, 0b00001000, 0b00111110],
    [0b00111100, 0b01000010, 0b00000010, 0b00000100, 0b00001000, 0b00010000, 0b00100000, 0b01111110],
    [0b00111100, 0b01000010, 0b00000010, 0b00011100, 0b00000010, 0b00000010, 0b01000010, 0b00111100],
    [0b00000100, 0b00001100, 0b00010100, 0b00100100, 0b01000100, 0b01111110, 0b00000100, 0b00000100],
    [0b01111110, 0b01000000, 0b01000000, 0b01111100, 0b00000010, 0b00000010, 0b01000010, 0b00111100],
    [0b00111100, 0b01000010, 0b01000000, 0b01111100, 0b01000010, 0b01000010, 0b01000010, 0b00111100],
    [0b01111110, 0b00000010, 0b00000100, 0b00001000, 0b00010000, 0b00100000, 0b00100000, 0b00100000],
    [0b00111100, 0b01000010, 0b01000010, 0b00111100, 0b01000010, 0b01000010, 0b01000010, 0b00111100],
    [0b00111100, 0b01000010, 0b01000010, 0b01000010, 0b00111110, 0b00000010, 0b01000010, 0b00111100] ]

/-- The function `display_digit`. The access `digits[digit][row]` is total indexing:
an access outside the table gives `none`. -/
def display_digit (digit : Nat) (s : Mcu) : Option Mcu :=
  if digit > 9 then some s
  else
    (List.range 8).foldlM
      (fun s row => (digits[digit]?.bind (fun g => g[row]?)).map (fun b => send_cmd (row + 1) b s))
      s

/-- The three stores of `main` that set the idle levels: chip-select high, clock low,
data low. -/
def main_pins (s : Mcu) : Mcu :=
  let s := write (1 <<< CS_PIN) s
  let s := write (1 <<< (CLK_PIN + 16)) s
  write (1 <<< (DIN_PIN + 16)) s

/-- The part of `main` before `while (1)` that touches the three lines: the idle
levels and `init_max7219()`. -/
def main_setup (s : Mcu) : Mcu :=
  init_max7219 (main_pins s)

/-- The cursor advance of the main loop: `count = (count + 1) % 10;`, computed in `int`
and stored to a `uint8_t`. -/
def next_count (count : Nat) : Nat :=
  ((count + 1) % 10) % 256

/-- One iteration of `while (1)`: display, `delay(1000)`, advance the cursor. -/
def main_iter (st : Nat × Mcu) : Option (Nat × Mcu) :=
  (display_digit st.1 st.2).map (fun s => (next_count st.1, delay 1000 s))

/-- The first `n` iterations of `while (1)`, from cursor `count`. -/
def main_loop : Nat → Nat → Mcu → Option (Nat × Mcu)
  | 0, count, s => some (count, s)
  | n + 1, count, s => (main_loop n count s).bind main_iter

/-- The function `main` cut after `n` iterations of its endless loop (`uint8_t count = 0`). -/
def main (n : Nat) (s : Mcu) : Option (Nat × Mcu) :=
  main_loop n 0 (main_setup s)

end ZeroNine

/-! ## `A-Zcounter.c`, uppercase program -/

namespace UpperAZ

/-- The function `delay`: `volatile uint32_t cycles = ms * 4000; while (cycles--) __NOP();`,
by recursion on the value of `cycles` at the loop test. When the test reads 0 the loop
exits (the post-decrement then wraps `cycles`, which is never read again). -/
def delay_while : Nat → Mcu → Mcu
  | 0, s => s
  | cycles + 1, s => delay_while cycles (nop s)

/-- The function `delay`, with `ms * 4000` computed on a `uint32_t`. -/
def delay (ms : Nat) (s : Mcu) : Mcu :=
  delay_while ((ms * 4000) % 2 ^ 32) s

/-- The loop of `send_byte` with `n` iterations left: clock low, data line from bit 7
of `data`, clock high, then `data <<= 1` on a `uint8_t`. -/
def send_byte_loop : Nat → Nat → Mcu → Mcu
  | 0, _, s => s
  | n + 1, data, s =>
    let s := write (1 <<< (CLK_PIN + 16)) s
    let s := if data &&& 0x80 ≠ 0 then write (1 <<< DIN_PIN) s
             else write (1 <<< (DIN_PIN + 16)) s
    let s := write (1 <<< CLK_PIN) s
    send_byte_loop n ((data <<< 1) % 256) s

/-- The function `send_byte`: eight iterations of the bit loop. -/
def send_byte (data : Nat) (s : Mcu) : Mcu :=
  send_byte_loop 8 data s

/-- The function `send_cmd`: chip-select low, register byte, data byte, chip-select high. -/
def send_cmd (reg data : Nat) (s : Mcu) : Mcu :=
  let s := write (1 <<< (CS_PIN + 16)) s
  let s := send_byte reg s
  let s := send_byte data s
  write (1 <<< CS_PIN) s

/-- The function `init_max7219`, the clearing loop `for (int i = 1; i <= 8; i++)` inlined as
in the source. -/
def init_max7219 (s : Mcu) : Mcu :=
  let s := send_cmd REG_DECODE_MODE 0x00 s
  let s := send_cmd REG_SCAN_LIMIT 0x07 s
  let s := send_cmd REG_INTENSITY 0x0A s
  let s := send_cmd REG_SHUTDOWN 0x01 s
  let s := send_cmd REG_DISPLAY_TEST 0x00 s
  (List.range' 1 8).foldl (fun s i => send_cmd i 0x00 s) s

/-- The function `clear_display`: `for (int i = 1; i <= 8; i++) send_cmd(i, 0x00);`. -/
def clear_display (s : Mcu) : Mcu :=
  (List.range' 1 8).foldl (fun s i => send_cmd i 0x00 s) s

/-- The table `capital_letters[23][8]` (A B C D E F G H I J K L M N O P R S T U V Y Z). -/
def capital_letters : List (List Nat) :=
  [ [0b00111100, 0b01000010, 0b01000010, 0b01000010, 0b01111110, 0b01000010, 0b01000010, 0b01000010],
    [0b01111100, 0b01000010, 0b01000010, 0b01111100, 0b01000010, 0b01000010, 0b01000010, 0b01111100],
    [0b00111100, 0b01000010, 0b01000000, 0b01000000, 0b01000000, 0b01000000, 0b01000010, 0b00111100],
    [0b01111000, 0b01000100, 0b01000010, 0b01000010, 0b01000010, 0b01000010, 0b01000100, 0b01111000],
    [0b01111110, 0b01000000, 0b01000000, 0b01111100, 0b01000000, 0b01000000, 0b01000000, 0b01111110],
    [0b01111110, 0b01000000, 0b01000000, 0b01111100, 0b01000000, 0b01000000, 0b01000000, 0b01000000],
    [0b00111100, 0b01000010, 0b01000000, 0b01000000, 0b01001110, 0b01000010, 0b01000010, 0b00111100],
    [0b01000010, 0b01000010, 0b01000010, 0b01111110, 0b01000010, 0b01000010, 0b01000010, 0b01000010],
    [0b00111100, 0b00001000, 0b00001000, 0b00001000, 0b00001000, 0b00001000, 0b00001000, 0b00111100],
    [0b00000010, 0b00000010, 0b00000010, 0b00000010, 0b00000010, 0b01000010, 0b01000010, 0b00111100],
    [0b01000010, 0b01000100, 0b01001000, 0b01010000, 0b01100000, 0b01010000, 0b01001000, 0b01000100],
    [0b01000000, 0b01000000, 0b01000000, 0b01000000, 0b01000000, 0b01000000, 0b01000000, 0b01111110],
    [0b01000010, 0b01100110, 0b01011010, 0b01000010, 0b01000010, 0b01000010, 0b01000010, 0b01000010],
    [0b01000010, 0b01100010, 0b01010010, 0b01001010, 0b01000110, 0b01000010, 0b01000010, 0b01000010],
    [0b00111100, 0b01000010, 0b01000010, 0b01000010, 0b01000010, 0b01000010, 0b01000010, 0b00111100],
    [0b01111100, 0b01000010, 0b01000010, 0b01111100, 0b01000000, 0b01000000, 0b01000000, 0b01000000],
    [0b01111100, 0b01000010, 0b01000010, 0b01111100, 0b01100000, 0b01010000, 0b01001000, 0b01000100],
    [0b00111100, 0b01000010, 0b01000000, 0b00111000, 0b00000100, 0b00000010, 0b01000010, 0b00111100],
    [0b01111110, 0b00010000, 0b00010000, 0b00010000, 0b00010000, 0b00010000, 0b00010000, 0b00010000],
    [0b01000010, 0b01000010, 0b01000010, 0b01000010, 0b01000010, 0b01000010, 0b01000010, 0b00111100],
    [0b01000010, 0b01000010, 0b01000010, 0b01000010, 0b01000010, 0b00100100, 0b00011000, 0b00000000],
    [0b01000010, 0b01000010, 0b00100100, 0b00011000, 0b00010000, 0b00010000, 0b00010000, 0b00010000],
    [0b01111110, 0b00000010, 0b00000100, 0b00001000, 0b00010000, 0b00100000, 0b01000000, 0b01111110] ]

/-- The function `display_capital_letter`: an index of 23 or more is replaced by 0, then the
eight rows are sent. The access `capital_letters[letter_idx][row]` is total indexing: an access
outside the table gives `none`. -/
def display_capital_letter (letter_idx : Nat) (s : Mcu) : Option Mcu :=
  let letter_idx := if letter_idx ≥ 23 then 0 else letter_idx
  (List.range 8).foldlM
    (fun s row =>
      (capital_letters[letter_idx]?.bind (fun g => g[row]?)).map (fun b => send_cmd (row + 1) b s))
    s

/-- The three stores of `main` that set the idle levels: chip-select high, clock low,
data low. -/
def main_pins (s : Mcu) : Mcu :=
  let s := write (1 <<< CS_PIN) s
  let s := write (1 <<< (CLK_PIN + 16)) s
  write (1 <<< (DIN_PIN + 16)) s

/-- The part of `main` before `while (1)` that touches the three lines: the idle
levels, `init_max7219()` and `clear_display()`. -/
def main_setup (s : Mcu) : Mcu :=
  clear_display (init_max7219 (main_pins s))

/-- The cursor advance of the main loop: `letter_idx++` on a `uint8_t`, then
`if (letter_idx >= 23) letter_idx = 0;`. -/
def next_letter_idx (letter_idx : Nat) : Nat :=
  let letter_idx := (letter_idx + 1) % 256
  if letter_idx ≥ 23 then 0 else letter_idx

/-- One iteration of `while (1)`: display, `delay(1000)`, advance the cursor. -/
def main_iter (st : Nat × Mcu) : Option (Nat × Mcu) :=
  (display_capital_letter st.1 st.2).map (fun s => (next_letter_idx st.1, delay 1000 s))

/-- The first `n` iterations of `while (1)`, from cursor `letter_idx`. -/
def main_loop : Nat → Nat → Mcu → Option (Nat × Mcu)
  | 0, letter_idx, s => some (letter_idx, s)
  | n + 1, letter_idx, s => (main_loop n letter_idx s).bind main_iter

/-- The function `main` cut after `n` iterations of its endless loop
(`uint8_t letter_idx = 0`). -/
def main (n : Nat) (s : Mcu) : Option (Nat × Mcu) :=
  main_loop n 0 (main_setup s)

end UpperAZ

/-! ## `A-Zcounter.c`, lowercase program (`a-z counter.c`) -/

namespace LowerAZ

/-- The function `delay`: `volatile uint32_t cycles = ms * 4000; while (cycles--) __NOP();`,
by recursion on the value of `cycles` at the loop test. When the test reads 0 the loop
exits (the post-decrement then wraps `cycles`, which is never read again). -/
def delay_while : Nat → Mcu → Mcu
  | 0, s => s
  | cycles + 1, s => delay_while cycles (nop s)

/-- The function `delay`, with `ms * 4000` computed on a `uint32_t`. -/
def delay (ms : Nat) (s : Mcu) : Mcu :=
  delay_while ((ms * 4000) % 2 ^ 32) s

/-- The loop of `send_byte` with `n` iterations left: clock low, data line from bit 7
of `data`, clock high, then `data <<= 1` on a `uint8_t`. -/
def send_byte_loop : Nat → Nat → Mcu → Mcu
  | 0, _, s => s
  | n + 1, data, s =>
    let s := write (1 <<< (CLK_PIN + 16)) s
    let s := if data &&& 0x80 ≠ 0 then write (1 <<< DIN_PIN) s
             else write (1 <<< (DIN_PIN + 16)) s
    let s := write (1 <<< CLK_PIN) s
    send_byte_loop n ((data <<< 1) % 256) s

/-- The function `send_byte`: eight iterations of the bit loop. -/
def send_byte (data : Nat) (s : Mcu) : Mcu :=
  send_byte_loop 8 data s

/-- The function `send_cmd`: chip-select low, register byte, data byte, chip-select high. -/
def send_cmd (reg data : Nat) (s : Mcu) : Mcu :=
  let s := write (1 <<< (CS_PIN + 16)) s
  let s := send_byte reg s
  let s := send_byte data s
  write (1 <<< CS_PIN) s

/-- The function `clear_display`: `for (int i = 1; i <= 8; i++) send_cmd(i, 0x00);`. -/
def clear_display (s : Mcu) : Mcu :=
  (List.range' 1 8).foldl (fun s i => send_cmd i 0x00 s) s

/-- The function `init_max7219`; this program ends it with a call of `clear_display`. -/
def init_max7219 (s : Mcu) : Mcu :=
  let s := send_cmd REG_DECODE_MODE 0x00 s
  let s := send_cmd REG_SCAN_LIMIT 0x07 s
  let s := send_cmd REG_INTENSITY 0x08 s
  let s := send_cmd REG_SHUTDOWN 0x01 s
  let s := send_cmd REG_DISPLAY_TEST 0x00 s
  clear_display s

/-- The table `letters[23][8]` (a b c d e f g h i j k l m n o p r s t u v y z). -/
def letters : List (List Nat) :=
  [ [0b00000000, 0b00000000, 0b00111000, 0b00000100, 0b00111100, 0b01000100, 0b01000100, 0b00111100],
    [0b01000000, 0b01000000, 0b01111000, 0b01000100, 0b01000100, 0b01000100, 0b01000100, 0b01111000],
    [0b00000000, 0b00000000, 0b00111100, 0b01000000, 0b01000000, 0b01000000, 0b01000000, 0b00111100],
    [0b00000100, 0b00000100, 0b00111100, 0b01000100, 0b01000100, 0b01000100, 0b01000100, 0b00111100],
    [0b00000000, 0b00000000, 0b00111000, 0b01000100, 0b01111100, 0b01000000, 0b01000000, 0b00111100],
    [0b00011100, 0b00100000, 0b00100000, 0b01111000, 0b00100000, 0b00100000, 0b00100000, 0b00100000],
    [0b00000000, 0b00000000, 0b00111100, 0b01000100, 0b01000100, 0b00111100, 0b00000100, 0b00111000],
    [0b01000000, 0b01000000, 0b01000000, 0b01111000, 0b01000100, 0b01000100, 0b01000100, 0b01000100],
    [0b00010000, 0b00000000, 0b00110000, 0b00010000, 0b00010000, 0b00010000, 0b00010000, 0b00111000],
    [0b00000100, 0b00000000, 0b00001100, 0b00000100, 0b00000100, 0b00000100, 0b01000100, 0b00111000],
    [0b01000000, 0b01000000, 0b01000100, 0b01001000, 0b01110000, 0b01001000, 0b01000100, 0b01000100],
    [0b00110000, 0b00010000, 0b00010000, 0b00010000, 0b00010000, 0b00010000, 0b00010000, 0b00111000],
    [0b00000000, 0b00000000, 0b01101000, 0b01010100, 0b01010100, 0b01010100, 0b01010100, 0b01010100],
    [0b00000000, 0b00000000, 0b01111000, 0b01000100, 0b01000100, 0b01000100, 0b01000100, 0b01000100],
    [0b00000000, 0b00000000, 0b00111000, 0b01000100, 0b01000100, 0b01000100, 0b01000100, 0b00111000],
    [0b00000000, 0b00000000, 0b01111000, 0b01000100, 0b01000100, 0b01111000, 0b01000000, 0b01000000],
    [0b00000000, 0b00000000, 0b01011100, 0b01100000, 0b01000000, 0b01000000, 0b01000000, 0b01000000],
    [0b00000000, 0b00000000, 0b00111100, 0b01000000, 0b00111000, 0b00000100, 0b00000100, 0b01111000],
    [0b00010000, 0b00010000, 0b00111000, 0b00010000, 0b00010000, 0b00010000, 0b00010000, 0b00001100],
    [0b00000000, 0b00000000, 0b01000100, 0b01000100, 0b01000100, 0b01000100, 0b01000100, 0b00111100],
    [0b00000000, 0b00000000, 0b01000100, 0b01000100, 0b01000100, 0b01000100, 0b00101000, 0b00010000],
    [0b00000000, 0b00000000, 0b01000100, 0b01000100, 0b01000100, 0b00111100, 0b00000100, 0b00111000],
    [0b00000000, 0b00000000, 0b01111100, 0b00000100, 0b00001000, 0b00010000, 0b00100000, 0b01111100] ]

/-- The function `display_letter`: an index of 23 or more is replaced by 0, then the
eight rows are sent. The access `letters[letter_idx][row]` is total indexing: an access
outside the table gives `none`. -/
def display_letter (letter_idx : Nat) (s : Mcu) : Option Mcu :=
  let letter_idx := if letter_idx ≥ 23 then 0 else letter_idx
  (List.range 8).foldlM
    (fun s row =>
      (letters[letter_idx]?.bind (fun g => g[row]?)).map (fun b => send_cmd (row + 1) b s))
    s

/-- The three stores of `main` that set the idle levels: chip-select high, clock low,
data low. -/
def main_pins (s : Mcu) : Mcu :=
  let s := write (1 <<< CS_PIN) s
  let s := write (1 <<< (CLK_PIN + 16)) s
  write (1 <<< (DIN_PIN + 16)) s

/-- The part of `main` before `while (1)` that touches the three lines: the idle
levels, `init_max7219()` and `clear_display()`. -/
def main_setup (s : Mcu) : Mcu :=
  clear_display (init_max7219 (main_pins s))

/-- The cursor advance of the main loop: `letter_idx++` on a `uint8_t`, then
`if (letter_idx >= 23) letter_idx = 0;`. -/
def next_letter_idx (letter_idx : Nat) : Nat :=
  let letter_idx := (letter_idx + 1) % 256
  if letter_idx ≥ 23 then 0 else letter_idx

/-- One iteration of `while (1)`: display, `delay(1000)`, advance the cursor. -/
def main_iter (st : Nat × Mcu) : Option (Nat × Mcu) :=
  (display_letter st.1 st.2).map (fun s => (next_letter_idx st.1, delay 1000 s))

/-- The first `n` iterations of `while (1)`, from cursor `letter_idx`. -/
def main_loop : Nat → Nat → Mcu → Option (Nat × Mcu)
  | 0, letter_idx, s => some (letter_idx, s)
  | n + 1, letter_idx, s => (main_loop n letter_idx s).bind main_iter

/-- The function `main` cut after `n` iterations of its endless loop
(`uint8_t letter_idx = 0`). -/
def main (n : Nat) (s : Mcu) : Option (Nat × Mcu) :=
  main_loop n 0 (main_setup s)

end LowerAZ

/-! ## The wire

What a store to `GPIOA->BSRR` does to the three lines, and the vocabulary in which the
properties below are stated. -/

/-- Levels of the three lines the driver owns; `true` is high. -/
structure Lines where
  din : Bool
  cs : Bool
  clk : Bool
deriving DecidableEq, Repr

/-- Level of output pin `pin` after `v` is stored to BSRR: bit `pin` sets the pin, bit
`pin + 16` resets it, the set bit has priority, and with neither bit the pin keeps its
level. -/
def pin_after (v pin : Nat) (old : Bool) : Bool :=
  if v.testBit pin then true
  else if v.testBit (pin + 16) then false
  else old

/-- The three lines after `v` is stored to BSRR. -/
def Lines.store (l : Lines) (v : Nat) : Lines :=
  { din := pin_after v DIN_PIN l.din
    cs := pin_after v CS_PIN l.cs
    clk := pin_after v CLK_PIN l.clk }

/-- The three lines after a sequence of stores. -/
def Lines.replay (l : Lines) (trace : List Nat) : Lines :=
  trace.foldl Lines.store l

/-- The store that drives the data line high. -/
def DIN_HIGH : Nat := 1
/-- The store that drives the data line low. -/
def DIN_LOW : Nat := 65536
/-- The store that drives chip-select high (deselect). -/
def CS_HIGH : Nat := 2
/-- The store that drives chip-select low (select). -/
def CS_LOW : Nat := 131072
/-- The store that drives the clock line high. -/
def CLK_HIGH : Nat := 4
/-- The store that drives the clock line low. -/
def CLK_LOW : Nat := 262144

/-- The three stores that put one bit on the wire: clock low, data line to the bit,
clock high. -/
def wire_bit (b : Bool) : List Nat :=
  [CLK_LOW, if b then DIN_HIGH else DIN_LOW, CLK_HIGH]

/-- The 24 stores that put a byte on the wire, bit 7 first. -/
def wire_byte (v : Nat) : List Nat :=
  (List.range 8).flatMap (fun k => wire_bit (v.testBit (7 - k)))

/-- A command frame: select, register byte, data byte, deselect. -/
def frame (reg data : Nat) : List Nat :=
  [CS_LOW] ++ wire_byte reg ++ wire_byte data ++ [CS_HIGH]

/-- The stores of a sequence of command frames, given as (register, data) pairs. -/
def frames (cmds : List (Nat × Nat)) : List Nat :=
  cmds.flatMap (fun c => frame c.1 c.2)

/-- The eight row frames of a glyph: row `r` goes to register `r + 1`. Rows are read
with a default of 0 outside the table. -/
def glyph_frames (table : List (List Nat)) (i : Nat) : List (Nat × Nat) :=
  (List.range 8).map (fun r => (r + 1, (table.getD i []).getD r 0))


/-- The receiving end of the link (the shift register of the driver chip): the levels it
sees and the bits it has sampled so far, oldest first. -/
structure Receiver where
  lines : Lines
  bits : List Bool
deriving DecidableEq, Repr

/-- The receiver observes one store: it samples the data line when the clock goes from
low to high while chip-select is low. -/
def Receiver.step (r : Receiver) (v : Nat) : Receiver :=
  let l := r.lines.store v
  { lines := l
    bits := if !r.lines.clk && l.clk && !l.cs then r.bits ++ [l.din] else r.bits }

/-- The bits a receiver samples when the stores of `trace` are replayed from levels `l`. -/
def receive (l : Lines) (trace : List Nat) : List Bool :=
  (trace.foldl Receiver.step { lines := l, bits := [] }).bits

/-- The number whose binary digits, most significant first, are `bits`. -/
def msb_first (bits : List Bool) : Nat :=
  bits.foldl (fun acc b => 2 * acc + b.toNat) 0

/-- A receiver started at levels `l` decodes `trace` to the register byte `reg` and the
data byte `data`: it samples exactly 16 bits, the first eight being `reg` and the last
eight `data`, each most significant bit first. -/
def decodes_to (l : Lines) (trace : List Nat) (reg data : Nat) : Prop :=
  (receive l trace).length = 16
  ∧ msb_first ((receive l trace).take 8) = reg
  ∧ msb_first ((receive l trace).drop 8) = data

/-- The command frames of the first `n` ticks of a main loop over `table` with `N` glyphs,
started at cursor 0: tick `k + 1` shows glyph `k mod N`. -/
def ticks_frames (table : List (List Nat)) (N n : Nat) : List (Nat × Nat) :=
  (List.range n).flatMap (fun k => glyph_frames table (k % N))

/-! ## Calls of the driver functions -/

namespace ZeroNine

/-- A call of one of the two functions of `0-9counter.c` that drive the lines. -/
inductive Call where
  | init
  | display (digit : Nat)
deriving DecidableEq, Repr

/-- Execute one call. -/
def Call.run : Call → Mcu → Option Mcu
  | .init, s => some (init_max7219 s)
  | .display digit, s => display_digit digit s

/-- Execute a finite sequence of calls, first to last. -/
def run_calls : List Call → Mcu → Option Mcu
  | [], s => some s
  | c :: cs, s => (c.run s).bind (run_calls cs)

end ZeroNine

namespace UpperAZ

/-- A call of one of the three functions of the uppercase program that drive the lines. -/
inductive Call where
  | init
  | clear
  | display (letter_idx : Nat)
deriving DecidableEq, Repr

/-- Execute one call. -/
def Call.run : Call → Mcu → Option Mcu
  | .init, s => some (init_max7219 s)
  | .clear, s => some (clear_display s)
  | .display letter_idx, s => display_capital_letter letter_idx s

/-- Execute a finite sequence of calls, first to last. -/
def run_calls : List Call → Mcu → Option Mcu
  | [], s => some s
  | c :: cs, s => (c.run s).bind (run_calls cs)

end UpperAZ

namespace LowerAZ

/-- A call of one of the three functions of the lowercase program that drive the lines. -/
inductive Call where
  | init
  | clear
  | display (letter_idx : Nat)
deriving DecidableEq, Repr

/-- Execute one call. -/
def Call.run : Call → Mcu → Option Mcu
  | .init, s => some (init_max7219 s)
  | .clear, s => some (clear_display s)
  | .display letter_idx, s => display_letter letter_idx s

/-- Execute a finite sequence of calls, first to last. -/
def run_calls : List Call → Mcu → Option Mcu
  | [], s => some s
  | c :: cs, s => (c.run s).bind (run_calls cs)

end LowerAZ

/-! ## A bus monitor for the chip-select framing -/

/-- What a monitor of the three lines has seen so far. -/
structure Monitor where
  /-- Present levels. -/
  lines : Lines
  /-- Rising clock edges since chip-select last went low. -/
  edges : Nat
  /-- For every completed interval of chip-select low, oldest first, the number of rising
  clock edges it contained. -/
  intervals : List Nat
  /-- Number of stores that drove the clock or the data line while chip-select was high. -/
  stray : Nat
deriving DecidableEq, Repr

/-- The store `v` drives the clock or the data line (it has a set or a reset bit of
one of the two pins). -/
def drives_clk_or_din (v : Nat) : Bool :=
  v.testBit DIN_PIN || v.testBit (DIN_PIN + 16) || v.testBit CLK_PIN || v.testBit (CLK_PIN + 16)

/-- The monitor observes one store. An interval opens when chip-select goes from high to
low and closes when it goes from low to high; a rising clock edge counts for the open
interval; a clock or data store seen while chip-select is high is stray. -/
def Monitor.step (m : Monitor) (v : Nat) : Monitor :=
  let l := m.lines.store v
  let edges :=
    if m.lines.cs && !l.cs then 0
    else if !m.lines.cs && !m.lines.clk && l.clk then m.edges + 1
    else m.edges
  { lines := l
    edges := edges
    intervals := if !m.lines.cs && l.cs then m.intervals ++ [edges] else m.intervals
    stray := if m.lines.cs && drives_clk_or_din v then m.stray + 1 else m.stray }

/-- The monitor after the stores of `trace`, started at levels `l` with nothing seen. -/
def monitor (l : Lines) (trace : List Nat) : Monitor :=
  trace.foldl Monitor.step { lines := l, edges := 0, intervals := [], stray := 0 }

/-- The chip-select framing holds for `trace` replayed from levels `l`: chip-select ends
high, every interval of chip-select low contained exactly 16 rising clock edges, and no
clock or data store happened while chip-select was high. -/
def framed (l : Lines) (trace : List Nat) : Prop :=
  (monitor l trace).lines.cs = true
  ∧ (∀ n ∈ (monitor l trace).intervals, n = 16)
  ∧ (monitor l trace).stray = 0

/-! ## Port A -/

/-- The six single-bit values of the set/reset register that belong to the three lines:
set and reset of PA0 (data), of PA1 (chip-select) and of PA2 (clock). -/
def line_masks : List Nat :=
  [1 <<< 0, 1 <<< 16, 1 <<< 1, 1 <<< 17, 1 <<< 2, 1 <<< 18]

/-- The store `v` acts on exactly one of the three lines: it forces one of PA0, PA1, PA2
to a level that does not depend on the level before, and every other pin of the 16-pin
port keeps its level. -/
def acts_on_one_line (v : Nat) : Prop :=
  ∃ p ∈ [DIN_PIN, CS_PIN, CLK_PIN], ∃ b : Bool,
    (∀ old : Bool, pin_after v p old = b)
    ∧ ∀ q : Nat, q < 16 → q ≠ p → ∀ old : Bool, pin_after v q old = old

/-! ## The register file of the driver chip -/

/-- The driver chip as seen from the three lines: the levels, the bits shifted in since
chip-select went low (oldest first) and the register file, indexed by register address. -/
structure Device where
  lines : Lines
  shift : List Bool
  regs : Nat → Nat

/-- The chip observes one store. Chip-select going low starts a new word; a rising clock
edge under chip-select low shifts the data line in; chip-select going high ends the frame:
a frame of exactly 16 bits stores its second byte at the address given by its first byte
(both most significant bit first), any other frame is ignored. -/
def Device.step (d : Device) (v : Nat) : Device :=
  let l := d.lines.store v
  if d.lines.cs && !l.cs then
    { lines := l, shift := [], regs := d.regs }
  else if !d.lines.cs && l.cs then
    { lines := l
      shift := []
      regs :=
        if d.shift.length = 16 then
          Function.update d.regs (msb_first (d.shift.take 8)) (msb_first (d.shift.drop 8))
        else d.regs }
  else if !d.lines.cs && !d.lines.clk && l.clk then
    { lines := l, shift := d.shift ++ [l.din], regs := d.regs }
  else
    { lines := l, shift := d.shift, regs := d.regs }

/-- The register file after the stores of `trace`, for a chip that starts at levels `l`
with register file `regs` and an empty shift register. -/
def device_regs (l : Lines) (regs : Nat → Nat) (trace : List Nat) : Nat → Nat :=
  (trace.foldl Device.step { lines := l, shift := [], regs := regs }).regs

/-- The register file after a sequence of command frames, each frame storing its data
byte at its register address. -/
def store_frames (cmds : List (Nat × Nat)) (regs : Nat → Nat) : Nat → Nat :=
  cmds.foldl (fun r c => Function.update r c.1 c.2) regs

/-- Row `r` of entry `i` of a glyph table, `none` outside the table. -/
def glyph_row (table : List (List Nat)) (i r : Nat) : Option Nat :=
  table[i]?.bind (fun g => g[r]?)

/-! ## Basic facts about the machine state -/

@[simp] theorem bsrr_write (v : Nat) (s : Mcu) : (write v s).bsrr = s.bsrr ++ [v] := rfl

@[simp] theorem nops_write (v : Nat) (s : Mcu) : (write v s).nops = s.nops := rfl

@[simp] theorem bsrr_reset : Mcu.reset.bsrr = [] := rfl

theorem land_0x80_ne_zero (d : Nat) : (d &&& 0x80 ≠ 0) ↔ d.testBit 7 = true := by
  have h : (0x80 : Nat) = 2 ^ 7 := by norm_num
  rw [h, Nat.and_two_pow]
  cases d.testBit 7 <;> simp

theorem testBit_shl_mod (d j : Nat) (h : j < 7) :
    ((d <<< 1) % 256).testBit (j + 1) = d.testBit j := by
  have h8 : (256 : Nat) = 2 ^ 8 := by norm_num
  rw [h8, Nat.testBit_mod_two_pow, Nat.testBit_shiftLeft]
  have : j + 1 < 8 := by omega
  simp [this]

namespace ZeroNine

theorem send_byte_loop_bsrr (n : Nat) : ∀ (data : Nat) (s : Mcu), n ≤ 8 →
    (send_byte_loop n data s).bsrr
      = s.bsrr ++ (List.range n).flatMap (fun k => wire_bit (data.testBit (7 - k))) := by
  induction n with
  | zero => intro data s _; simp [send_byte_loop]
  | succ n ih =>
    intro data s hn
    have hstep : (List.range n).flatMap
          (fun k => wire_bit (((data <<< 1) % 256).testBit (7 - k)))
        = (List.range n).flatMap (fun k => wire_bit (data.testBit (7 - (k + 1)))) := by
      apply List.flatMap_congr
      intro k hk
      have hk : k < n := List.mem_range.mp hk
      have e : 7 - k = (7 - (k + 1)) + 1 := by omega
      rw [e, testBit_shl_mod _ _ (by omega)]
    rw [send_byte_loop, ih _ _ (by omega), hstep, List.range_succ_eq_map, List.flatMap_cons,
      List.flatMap_map]
    by_cases hb : data &&& 0x80 ≠ 0
    · have ht := (land_0x80_ne_zero data).mp hb
      simp [hb, ht, wire_bit, CLK_LOW, CLK_HIGH, DIN_HIGH, CLK_PIN, DIN_PIN, Function.comp_def]
    · have ht : data.testBit 7 = false := by
        cases h : data.testBit 7
        · rfl
        · exact absurd ((land_0x80_ne_zero data).mpr h) hb
      simp [hb, ht, wire_bit, CLK_LOW, CLK_HIGH, DIN_LOW, CLK_PIN, DIN_PIN, Function.comp_def]

theorem send_byte_bsrr (data : Nat) (s : Mcu) :
    (send_byte data s).bsrr = s.bsrr ++ wire_byte data :=
  send_byte_loop_bsrr 8 data s (Nat.le_refl 8)

end ZeroNine

namespace ZeroNine

theorem send_cmd_bsrr (reg data : Nat) (s : Mcu) :
    (send_cmd reg data s).bsrr = s.bsrr ++ frame reg data := by
  simp [send_cmd, send_byte_bsrr, frame, CS_LOW, CS_HIGH, CS_PIN]

end ZeroNine

/-! ## The three copies of the link layer coincide -/

theorem upper_send_byte_loop_eq (n data : Nat) (s : Mcu) :
    UpperAZ.send_byte_loop n data s = ZeroNine.send_byte_loop n data s := by
  induction n generalizing data s with
  | zero => rfl
  | succ n ih => simp only [UpperAZ.send_byte_loop, ZeroNine.send_byte_loop, ih]

theorem lower_send_byte_loop_eq (n data : Nat) (s : Mcu) :
    LowerAZ.send_byte_loop n data s = ZeroNine.send_byte_loop n data s := by
  induction n generalizing data s with
  | zero => rfl
  | succ n ih => simp only [LowerAZ.send_byte_loop, ZeroNine.send_byte_loop, ih]

theorem upper_send_byte_eq : UpperAZ.send_byte = ZeroNine.send_byte := by
  funext data s
  exact upper_send_byte_loop_eq 8 data s

theorem lower_send_byte_eq : LowerAZ.send_byte = ZeroNine.send_byte := by
  funext data s
  exact lower_send_byte_loop_eq 8 data s

theorem upper_send_cmd_eq : UpperAZ.send_cmd = ZeroNine.send_cmd := by
  funext reg data s
  simp only [UpperAZ.send_cmd, ZeroNine.send_cmd, upper_send_byte_eq]

theorem lower_send_cmd_eq : LowerAZ.send_cmd = ZeroNine.send_cmd := by
  funext reg data s
  simp only [LowerAZ.send_cmd, ZeroNine.send_cmd, lower_send_byte_eq]

theorem length_wire_byte (v : Nat) : (wire_byte v).length = 24 := by
  simp [wire_byte, wire_bit, List.range_succ_eq_map, List.flatMap_cons]

theorem length_frame (reg data : Nat) : (frame reg data).length = 50 := by
  simp [frame, length_wire_byte]

/-! ## Serial link -/

/-- C2: for every value `v` (in particular every 8-bit value) and in each of the three
programs, `send_byte(v)` appends exactly 24 stores to the GPIO trace: for k = 0..7 in this
order the triple clock low, data line high if bit `7 - k` of `v` is set and low otherwise,
clock high. The four stores involved do to the lines what their names say. -/
theorem send_byte_emits_msb_first (v : Nat) (s : Mcu) :
    (ZeroNine.send_byte v s).bsrr = s.bsrr ++ wire_byte v
    ∧ (UpperAZ.send_byte v s).bsrr = s.bsrr ++ wire_byte v
    ∧ (LowerAZ.send_byte v s).bsrr = s.bsrr ++ wire_byte v
    ∧ wire_byte v = (List.range 8).flatMap
        (fun k => [CLK_LOW, if v.testBit (7 - k) then DIN_HIGH else DIN_LOW, CLK_HIGH])
    ∧ (wire_byte v).length = 24
    ∧ (∀ l : Lines, l.store CLK_LOW = { l with clk := false })
    ∧ (∀ l : Lines, l.store CLK_HIGH = { l with clk := true })
    ∧ (∀ l : Lines, l.store DIN_LOW = { l with din := false })
    ∧ (∀ l : Lines, l.store DIN_HIGH = { l with din := true }) := by
  refine ⟨ZeroNine.send_byte_bsrr v s, ?_, ?_, rfl, length_wire_byte v, ?_, ?_, ?_, ?_⟩
  · rw [upper_send_byte_eq]; exact ZeroNine.send_byte_bsrr v s
  · rw [lower_send_byte_eq]; exact ZeroNine.send_byte_bsrr v s
  all_goals
    intro l
    rfl

/-- C1: in each of the three programs the stores made by `send_cmd(reg, data)` are exactly
one chip-select-low store, the 24 stores of `send_byte(reg)`, the 24 stores of
`send_byte(data)` and one chip-select-high store, 50 in total; for `send_cmd(0x0C, 0x01)`
this is the frame select, byte 0x0C, byte 0x01, deselect. -/
theorem send_cmd_emits_one_frame (reg data : Nat) (s : Mcu) :
    (ZeroNine.send_cmd reg data s).bsrr
        = s.bsrr ++ ([CS_LOW] ++ (ZeroNine.send_byte reg Mcu.reset).bsrr
            ++ (ZeroNine.send_byte data Mcu.reset).bsrr ++ [CS_HIGH])
    ∧ (UpperAZ.send_cmd reg data s).bsrr
        = s.bsrr ++ ([CS_LOW] ++ (UpperAZ.send_byte reg Mcu.reset).bsrr
            ++ (UpperAZ.send_byte data Mcu.reset).bsrr ++ [CS_HIGH])
    ∧ (LowerAZ.send_cmd reg data s).bsrr
        = s.bsrr ++ ([CS_LOW] ++ (LowerAZ.send_byte reg Mcu.reset).bsrr
            ++ (LowerAZ.send_byte data Mcu.reset).bsrr ++ [CS_HIGH])
    ∧ (ZeroNine.send_byte reg Mcu.reset).bsrr.length = 24
    ∧ (ZeroNine.send_byte data Mcu.reset).bsrr.length = 24
    ∧ ([CS_LOW] ++ (ZeroNine.send_byte reg Mcu.reset).bsrr
            ++ (ZeroNine.send_byte data Mcu.reset).bsrr ++ [CS_HIGH]).length = 50
    ∧ (ZeroNine.send_cmd 0x0C 0x01 Mcu.reset).bsrr
        = [CS_LOW] ++ wire_byte 0x0C ++ wire_byte 0x01 ++ [CS_HIGH]
    ∧ (∀ l : Lines, l.store CS_LOW = { l with cs := false })
    ∧ (∀ l : Lines, l.store CS_HIGH = { l with cs := true }) := by
  have hz : (ZeroNine.send_cmd reg data s).bsrr
        = s.bsrr ++ ([CS_LOW] ++ (ZeroNine.send_byte reg Mcu.reset).bsrr
            ++ (ZeroNine.send_byte data Mcu.reset).bsrr ++ [CS_HIGH]) := by
    rw [ZeroNine.send_cmd_bsrr, ZeroNine.send_byte_bsrr, ZeroNine.send_byte_bsrr]
    simp [frame]
  refine ⟨hz, ?_, ?_, ?_, ?_, ?_, ?_, ?_, ?_⟩
  · rw [upper_send_cmd_eq, upper_send_byte_eq]; exact hz
  · rw [lower_send_cmd_eq, lower_send_byte_eq]; exact hz
  · rw [ZeroNine.send_byte_bsrr]; simp [length_wire_byte]
  · rw [ZeroNine.send_byte_bsrr]; simp [length_wire_byte]
  · rw [ZeroNine.send_byte_bsrr, ZeroNine.send_byte_bsrr]; simp [length_wire_byte]
  · rw [ZeroNine.send_cmd_bsrr]; simp [frame]
  · intro l; rfl
  · intro l; rfl

/-! ## The receiver decodes what the link sends -/

theorem receiver_wire_bit (b : Bool) (r : Receiver) (hcs : r.lines.cs = false) :
    (wire_bit b).foldl Receiver.step r
      = { lines := { din := b, cs := false, clk := true }, bits := r.bits ++ [b] } := by
  obtain ⟨⟨din, cs, clk⟩, bits⟩ := r
  simp only at hcs
  subst hcs
  cases b <;> cases din <;> cases clk <;> rfl

theorem receiver_wire_bits (bs : List Bool) : ∀ (r : Receiver), r.lines.cs = false →
    ((bs.flatMap wire_bit).foldl Receiver.step r).bits = r.bits ++ bs
    ∧ ((bs.flatMap wire_bit).foldl Receiver.step r).lines.cs = false := by
  induction bs with
  | nil => intro r h; simp [h]
  | cons b bs ih =>
    intro r h
    rw [List.flatMap_cons, List.foldl_append, receiver_wire_bit b r h]
    have := ih { lines := { din := b, cs := false, clk := true }, bits := r.bits ++ [b] } rfl
    simpa using this

/-- The bits of a byte, most significant first. -/
theorem wire_byte_eq (v : Nat) :
    wire_byte v = ((List.range 8).map (fun k => v.testBit (7 - k))).flatMap wire_bit := by
  simp [wire_byte, List.flatMap_map]

theorem msb_first_bits (v : Nat) (hv : v < 256) :
    msb_first ((List.range 8).map (fun k => v.testBit (7 - k))) = v := by
  have hr : List.range 8 = [0,1,2,3,4,5,6,7] := by decide
  rw [hr]
  simp only [msb_first, List.map_cons, List.map_nil,
    List.foldl_cons, List.foldl_nil, Nat.testBit_to_div_mod]
  have hb : ∀ x : Nat, (decide (x % 2 = 1)).toNat = x % 2 := by
    intro x
    rcases Nat.mod_two_eq_zero_or_one x with h | h <;> simp [h]
  simp only [hb]
  simp only [Nat.reduceSub, Nat.reducePow, Nat.mul_zero, Nat.zero_add, Nat.div_one]
  omega

theorem receive_frame (reg data : Nat) (l : Lines) :
    receive l (frame reg data)
      = (List.range 8).map (fun k => reg.testBit (7 - k))
        ++ (List.range 8).map (fun k => data.testBit (7 - k)) := by
  unfold receive frame
  rw [List.foldl_append, List.foldl_append, List.foldl_append, wire_byte_eq, wire_byte_eq]
  set r0 : Receiver := [CS_LOW].foldl Receiver.step { lines := l, bits := [] } with hr0
  have h0 : r0.lines.cs = false ∧ r0.bits = [] := by
    obtain ⟨din, cs, clk⟩ := l
    cases din <;> cases cs <;> cases clk <;> exact ⟨rfl, rfl⟩
  obtain ⟨h1b, h1c⟩ := receiver_wire_bits ((List.range 8).map (fun k => reg.testBit (7 - k)))
    r0 h0.1
  set r1 := (((List.range 8).map (fun k => reg.testBit (7 - k))).flatMap wire_bit).foldl
    Receiver.step r0 with hr1
  obtain ⟨h2b, h2c⟩ := receiver_wire_bits ((List.range 8).map (fun k => data.testBit (7 - k)))
    r1 h1c
  set r2 := (((List.range 8).map (fun k => data.testBit (7 - k))).flatMap wire_bit).foldl
    Receiver.step r1 with hr2
  have h3 : ([CS_HIGH].foldl Receiver.step r2).bits = r2.bits := by
    simp only [List.foldl_cons, List.foldl_nil, Receiver.step]
    have hclk : (r2.lines.store CS_HIGH).clk = r2.lines.clk := rfl
    rw [hclk]
    cases r2.lines.clk <;> simp
  rw [h3, h2b, h1b, h0.2]
  simp

theorem decodes_frame (reg data : Nat) (hreg : reg < 256) (hdata : data < 256) (l : Lines) :
    decodes_to l (frame reg data) reg data := by
  unfold decodes_to
  rw [receive_frame]
  refine ⟨by simp, ?_, ?_⟩
  · have h8 : ((List.range 8).map (fun k => reg.testBit (7 - k))).length = 8 := by simp
    rw [List.take_left' h8]
    exact msb_first_bits reg hreg
  · have h8 : ((List.range 8).map (fun k => reg.testBit (7 - k))).length = 8 := by simp
    rw [List.drop_left' h8]
    exact msb_first_bits data hdata

/-- C3: round trip of the wire format. For all bytes `reg` and `data` and all initial
levels of the lines, a receiver that replays the stores of `send_cmd(reg, data)` (any of
the three programs) and samples the data line at each rising clock edge while chip-select
is low collects exactly 16 bits; read most significant bit first they are `reg`, then
`data`. -/
theorem send_cmd_round_trip (reg data : Nat) (hreg : reg < 256) (hdata : data < 256)
    (l : Lines) :
    decodes_to l (ZeroNine.send_cmd reg data Mcu.reset).bsrr reg data
    ∧ decodes_to l (UpperAZ.send_cmd reg data Mcu.reset).bsrr reg data
    ∧ decodes_to l (LowerAZ.send_cmd reg data Mcu.reset).bsrr reg data := by
  have hz : decodes_to l (ZeroNine.send_cmd reg data Mcu.reset).bsrr reg data := by
    rw [ZeroNine.send_cmd_bsrr]
    simpa using decodes_frame reg data hreg hdata l
  refine ⟨hz, ?_, ?_⟩
  · rw [upper_send_cmd_eq]; exact hz
  · rw [lower_send_cmd_eq]; exact hz

/-- Witness for C3: the shutdown command 0x0C 0x01 sent from the idle levels. -/
theorem send_cmd_round_trip_witness :
    (0x0C < 256 ∧ 0x01 < 256)
    ∧ decodes_to { din := false, cs := true, clk := false }
        (ZeroNine.send_cmd 0x0C 0x01 Mcu.reset).bsrr 0x0C 0x01 :=
  ⟨by decide,
    (send_cmd_round_trip 0x0C 0x01 (by decide) (by decide)
      { din := false, cs := true, clk := false }).1⟩

/-! ## Device controller -/

theorem frames_nil : frames [] = [] := rfl

theorem frames_cons (c : Nat × Nat) (cs : List (Nat × Nat)) :
    frames (c :: cs) = frame c.1 c.2 ++ frames cs := rfl

theorem frames_append (xs ys : List (Nat × Nat)) :
    frames (xs ++ ys) = frames xs ++ frames ys := by
  simp [frames, List.flatMap_append]

theorem length_frames (cs : List (Nat × Nat)) : (frames cs).length = 50 * cs.length := by
  induction cs with
  | nil => rfl
  | cons c cs ih => rw [frames_cons, List.length_append, length_frame, ih, List.length_cons]; ring

theorem clear_loop_bsrr (rows : List Nat) : ∀ s : Mcu,
    (rows.foldl (fun s i => ZeroNine.send_cmd i 0x00 s) s).bsrr
      = s.bsrr ++ frames (rows.map (fun i => (i, 0x00))) := by
  induction rows with
  | nil => intro s; simp [frames_nil]
  | cons i rows ih =>
    intro s
    rw [List.foldl_cons, ih, ZeroNine.send_cmd_bsrr, List.map_cons, frames_cons,
      List.append_assoc]

theorem zero_nine_init_bsrr (s : Mcu) :
    (ZeroNine.init_max7219 s).bsrr
      = s.bsrr ++ frames [(0x09, 0x00), (0x0B, 0x07), (0x0A, 0x0A), (0x0C, 0x01), (0x0F, 0x00),
          (1, 0), (2, 0), (3, 0), (4, 0), (5, 0), (6, 0), (7, 0), (8, 0)] := by
  unfold ZeroNine.init_max7219
  simp only [clear_loop_bsrr, ZeroNine.send_cmd_bsrr, REG_DECODE_MODE, REG_SCAN_LIMIT,
    REG_INTENSITY, REG_SHUTDOWN, REG_DISPLAY_TEST, List.append_assoc]
  rfl

theorem upper_init_bsrr (s : Mcu) :
    (UpperAZ.init_max7219 s).bsrr
      = s.bsrr ++ frames [(0x09, 0x00), (0x0B, 0x07), (0x0A, 0x0A), (0x0C, 0x01), (0x0F, 0x00),
          (1, 0), (2, 0), (3, 0), (4, 0), (5, 0), (6, 0), (7, 0), (8, 0)] := by
  unfold UpperAZ.init_max7219
  rw [upper_send_cmd_eq]
  exact zero_nine_init_bsrr s

theorem upper_clear_bsrr (s : Mcu) :
    (UpperAZ.clear_display s).bsrr
      = s.bsrr ++ frames [(1, 0), (2, 0), (3, 0), (4, 0), (5, 0), (6, 0), (7, 0), (8, 0)] := by
  unfold UpperAZ.clear_display
  rw [upper_send_cmd_eq, clear_loop_bsrr]
  rfl

theorem lower_clear_bsrr (s : Mcu) :
    (LowerAZ.clear_display s).bsrr
      = s.bsrr ++ frames [(1, 0), (2, 0), (3, 0), (4, 0), (5, 0), (6, 0), (7, 0), (8, 0)] := by
  unfold LowerAZ.clear_display
  rw [lower_send_cmd_eq, clear_loop_bsrr]
  rfl

theorem lower_init_bsrr (s : Mcu) :
    (LowerAZ.init_max7219 s).bsrr
      = s.bsrr ++ frames [(0x09, 0x00), (0x0B, 0x07), (0x0A, 0x08), (0x0C, 0x01), (0x0F, 0x00),
          (1, 0), (2, 0), (3, 0), (4, 0), (5, 0), (6, 0), (7, 0), (8, 0)] := by
  unfold LowerAZ.init_max7219
  simp only [lower_clear_bsrr, lower_send_cmd_eq, ZeroNine.send_cmd_bsrr, REG_DECODE_MODE,
    REG_SCAN_LIMIT, REG_INTENSITY, REG_SHUTDOWN, REG_DISPLAY_TEST, List.append_assoc]
  rfl

/-- C4: in each of the three programs `init_max7219()` appends to the GPIO trace exactly 13
command frames, with register addresses 0x09 (decode-mode), 0x0B (scan-limit), 0x0A
(intensity), 0x0C (shutdown), 0x0F (display-test), then 0x01 to 0x08 in this order, and with
data 0x00 for decode-mode, 0x07 for scan-limit, 0x01 for shutdown, 0x00 for display-test and
0x00 for each of the eight rows (the intensity data is 0x0A in the digit and uppercase
programs and 0x08 in the lowercase program). -/
theorem init_max7219_emits_thirteen_frames (s : Mcu) :
    (ZeroNine.init_max7219 s).bsrr
      = s.bsrr ++ frames [(0x09, 0x00), (0x0B, 0x07), (0x0A, 0x0A), (0x0C, 0x01), (0x0F, 0x00),
          (0x01, 0x00), (0x02, 0x00), (0x03, 0x00), (0x04, 0x00), (0x05, 0x00), (0x06, 0x00),
          (0x07, 0x00), (0x08, 0x00)]
    ∧ (UpperAZ.init_max7219 s).bsrr
      = s.bsrr ++ frames [(0x09, 0x00), (0x0B, 0x07), (0x0A, 0x0A), (0x0C, 0x01), (0x0F, 0x00),
          (0x01, 0x00), (0x02, 0x00), (0x03, 0x00), (0x04, 0x00), (0x05, 0x00), (0x06, 0x00),
          (0x07, 0x00), (0x08, 0x00)]
    ∧ (LowerAZ.init_max7219 s).bsrr
      = s.bsrr ++ frames [(0x09, 0x00), (0x0B, 0x07), (0x0A, 0x08), (0x0C, 0x01), (0x0F, 0x00),
          (0x01, 0x00), (0x02, 0x00), (0x03, 0x00), (0x04, 0x00), (0x05, 0x00), (0x06, 0x00),
          (0x07, 0x00), (0x08, 0x00)]
    ∧ (ZeroNine.init_max7219 s).bsrr.length = s.bsrr.length + 13 * 50
    ∧ (UpperAZ.init_max7219 s).bsrr.length = s.bsrr.length + 13 * 50
    ∧ (LowerAZ.init_max7219 s).bsrr.length = s.bsrr.length + 13 * 50
    ∧ (∀ reg data : Nat, (ZeroNine.send_cmd reg data Mcu.reset).bsrr = frames [(reg, data)]) := by
  refine ⟨zero_nine_init_bsrr s, upper_init_bsrr s, lower_init_bsrr s, ?_, ?_, ?_, ?_⟩
  · rw [zero_nine_init_bsrr, List.length_append, length_frames]; rfl
  · rw [upper_init_bsrr, List.length_append, length_frames]; rfl
  · rw [lower_init_bsrr, List.length_append, length_frames]; rfl
  · intro reg data
    rw [ZeroNine.send_cmd_bsrr]
    simp [frames]

/-! ## Display functions -/

theorem render_fold_bsrr (g : List Nat) (rows : List Nat) : ∀ s : Mcu,
    (rows.foldl (fun s row => ZeroNine.send_cmd (row + 1) (g.getD row 0) s) s).bsrr
      = s.bsrr ++ frames (rows.map (fun r => (r + 1, g.getD r 0))) := by
  induction rows with
  | nil => intro s; simp [frames_nil]
  | cons r rows ih =>
    intro s
    rw [List.foldl_cons, ih, ZeroNine.send_cmd_bsrr, List.map_cons, frames_cons,
      List.append_assoc]

theorem render_foldlM (g : List Nat) (rows : List Nat) (hrows : ∀ r ∈ rows, r < g.length) :
    ∀ s : Mcu,
    rows.foldlM (fun s row => (g[row]?).map (fun b => ZeroNine.send_cmd (row + 1) b s)) s
      = some (rows.foldl (fun s row => ZeroNine.send_cmd (row + 1) (g.getD row 0) s) s) := by
  induction rows with
  | nil => intro s; rfl
  | cons r rows ih =>
    intro s
    have hr : r < g.length := hrows r (List.mem_cons_self r rows)
    have hget : g[r]? = some (g.getD r 0) := by
      rw [List.getD_eq_getElem?_getD, List.getElem?_eq_getElem hr]
      rfl
    rw [List.foldlM_cons, hget]
    simp only [Option.map_some', Option.bind_eq_bind, Option.some_bind, List.foldl_cons]
    exact ih (fun r hr => hrows r (List.mem_cons_of_mem _ hr)) _

theorem render_rows_bsrr (table : List (List Nat)) (idx : Nat) (g : List Nat)
    (hg : table[idx]? = some g) (hlen : g.length = 8) (s : Mcu) :
    ∃ s', (List.range 8).foldlM
        (fun s row =>
          (table[idx]?.bind (fun g => g[row]?)).map (fun b => ZeroNine.send_cmd (row + 1) b s))
        s = some s'
      ∧ s'.bsrr = s.bsrr ++ frames ((List.range 8).map (fun r => (r + 1, g.getD r 0))) := by
  simp only [hg, Option.some_bind]
  refine ⟨_, render_foldlM g (List.range 8) ?_ s, render_fold_bsrr g _ s⟩
  intro r hr
  rw [hlen]
  exact List.mem_range.mp hr

theorem digits_entry (i : Nat) (hi : i < 10) :
    ∃ g, ZeroNine.digits[i]? = some g ∧ g.length = 8 := by
  interval_cases i <;> exact ⟨_, rfl, rfl⟩

theorem capital_letters_entry (i : Nat) (hi : i < 23) :
    ∃ g, UpperAZ.capital_letters[i]? = some g ∧ g.length = 8 := by
  interval_cases i <;> exact ⟨_, rfl, rfl⟩

theorem letters_entry (i : Nat) (hi : i < 23) :
    ∃ g, LowerAZ.letters[i]? = some g ∧ g.length = 8 := by
  interval_cases i <;> exact ⟨_, rfl, rfl⟩

theorem glyph_frames_of_entry (table : List (List Nat)) (i : Nat) (g : List Nat)
    (hg : table[i]? = some g) :
    glyph_frames table i = (List.range 8).map (fun r => (r + 1, g.getD r 0)) := by
  unfold glyph_frames
  rw [List.getD_eq_getElem?_getD, hg]
  rfl

theorem display_digit_bsrr (i : Nat) (hi : i < 10) (s : Mcu) :
    ∃ s', ZeroNine.display_digit i s = some s'
      ∧ s'.bsrr = s.bsrr ++ frames (glyph_frames ZeroNine.digits i) := by
  obtain ⟨g, hg, hlen⟩ := digits_entry i hi
  obtain ⟨s', h1, h2⟩ := render_rows_bsrr ZeroNine.digits i g hg hlen s
  refine ⟨s', ?_, ?_⟩
  · unfold ZeroNine.display_digit
    rw [if_neg (by omega)]
    exact h1
  · rw [h2, glyph_frames_of_entry _ _ _ hg]

theorem display_capital_letter_bsrr (i : Nat) (hi : i < 23) (s : Mcu) :
    ∃ s', UpperAZ.display_capital_letter i s = some s'
      ∧ s'.bsrr = s.bsrr ++ frames (glyph_frames UpperAZ.capital_letters i) := by
  obtain ⟨g, hg, hlen⟩ := capital_letters_entry i hi
  obtain ⟨s', h1, h2⟩ := render_rows_bsrr UpperAZ.capital_letters i g hg hlen s
  refine ⟨s', ?_, ?_⟩
  · unfold UpperAZ.display_capital_letter
    simp only [ge_iff_le, if_neg (Nat.not_le.mpr hi), upper_send_cmd_eq]
    exact h1
  · rw [h2, glyph_frames_of_entry _ _ _ hg]

theorem display_letter_bsrr (i : Nat) (hi : i < 23) (s : Mcu) :
    ∃ s', LowerAZ.display_letter i s = some s'
      ∧ s'.bsrr = s.bsrr ++ frames (glyph_frames LowerAZ.letters i) := by
  obtain ⟨g, hg, hlen⟩ := letters_entry i hi
  obtain ⟨s', h1, h2⟩ := render_rows_bsrr LowerAZ.letters i g hg hlen s
  refine ⟨s', ?_, ?_⟩
  · unfold LowerAZ.display_letter
    simp only [ge_iff_le, if_neg (Nat.not_le.mpr hi), lower_send_cmd_eq]
    exact h1
  · rw [h2, glyph_frames_of_entry _ _ _ hg]

theorem display_capital_letter_clamp (i : Nat) (hi : 23 ≤ i) (s : Mcu) :
    UpperAZ.display_capital_letter i s = UpperAZ.display_capital_letter 0 s := by
  unfold UpperAZ.display_capital_letter
  simp only [ge_iff_le, if_pos hi]
  rfl

theorem display_letter_clamp (i : Nat) (hi : 23 ≤ i) (s : Mcu) :
    LowerAZ.display_letter i s = LowerAZ.display_letter 0 s := by
  unfold LowerAZ.display_letter
  simp only [ge_iff_le, if_pos hi]
  rfl

theorem display_digit_guard (d : Nat) (hd : 9 < d) (s : Mcu) :
    ZeroNine.display_digit d s = some s := by
  unfold ZeroNine.display_digit
  rw [if_pos hd]

/-- C5: for every in-range index `i` the display function appends to the GPIO trace exactly
the eight command frames of entry `i` of its table and nothing else: for r = 0..7 in
ascending order, the frame with register address `r + 1` and data byte row `r` of the
entry. The entry exists and has eight rows, so every row read is a table element. -/
theorem display_emits_eight_row_frames (i : Nat) (s : Mcu) :
    (i < 10 → ∃ g s', ZeroNine.digits[i]? = some g ∧ g.length = 8
        ∧ ZeroNine.display_digit i s = some s'
        ∧ s'.bsrr = s.bsrr ++ frames ((List.range 8).map (fun r => (r + 1, g.getD r 0))))
    ∧ (i < 23 → ∃ g s', UpperAZ.capital_letters[i]? = some g ∧ g.length = 8
        ∧ UpperAZ.display_capital_letter i s = some s'
        ∧ s'.bsrr = s.bsrr ++ frames ((List.range 8).map (fun r => (r + 1, g.getD r 0))))
    ∧ (i < 23 → ∃ g s', LowerAZ.letters[i]? = some g ∧ g.length = 8
        ∧ LowerAZ.display_letter i s = some s'
        ∧ s'.bsrr = s.bsrr ++ frames ((List.range 8).map (fun r => (r + 1, g.getD r 0)))) := by
  refine ⟨fun hi => ?_, fun hi => ?_, fun hi => ?_⟩
  · obtain ⟨g, hg, hlen⟩ := digits_entry i hi
    obtain ⟨s', h1, h2⟩ := display_digit_bsrr i hi s
    exact ⟨g, s', hg, hlen, h1, by rw [h2, glyph_frames_of_entry _ _ _ hg]⟩
  · obtain ⟨g, hg, hlen⟩ := capital_letters_entry i hi
    obtain ⟨s', h1, h2⟩ := display_capital_letter_bsrr i hi s
    exact ⟨g, s', hg, hlen, h1, by rw [h2, glyph_frames_of_entry _ _ _ hg]⟩
  · obtain ⟨g, hg, hlen⟩ := letters_entry i hi
    obtain ⟨s', h1, h2⟩ := display_letter_bsrr i hi s
    exact ⟨g, s', hg, hlen, h1, by rw [h2, glyph_frames_of_entry _ _ _ hg]⟩

/-- Witness for C5: digit 3, letter T (index 18) and letter z (index 22). -/
theorem display_emits_eight_row_frames_witness :
    (3 < 10 ∧ ∃ g s', ZeroNine.digits[3]? = some g ∧ g.length = 8
        ∧ ZeroNine.display_digit 3 Mcu.reset = some s'
        ∧ s'.bsrr = Mcu.reset.bsrr
            ++ frames ((List.range 8).map (fun r => (r + 1, g.getD r 0))))
    ∧ (18 < 23 ∧ ∃ g s', UpperAZ.capital_letters[18]? = some g ∧ g.length = 8
        ∧ UpperAZ.display_capital_letter 18 Mcu.reset = some s'
        ∧ s'.bsrr = Mcu.reset.bsrr
            ++ frames ((List.range 8).map (fun r => (r + 1, g.getD r 0)))) :=
  ⟨⟨by decide, (display_emits_eight_row_frames 3 Mcu.reset).1 (by decide)⟩,
    ⟨by decide, (display_emits_eight_row_frames 18 Mcu.reset).2.1 (by decide)⟩⟩

/-- C6: for every index `i` of 23 or more (in particular every such 8-bit index),
`display_capital_letter(i)` behaves exactly as `display_capital_letter(0)` and
`display_letter(i)` exactly as `display_letter(0)`: the index is clamped to 0 and the eight
frames of glyph 0 are emitted. -/
theorem display_letter_clamps_to_zero (i : Nat) (hi : 23 ≤ i) (s : Mcu) :
    UpperAZ.display_capital_letter i s = UpperAZ.display_capital_letter 0 s
    ∧ LowerAZ.display_letter i s = LowerAZ.display_letter 0 s
    ∧ (∃ s', UpperAZ.display_capital_letter i s = some s'
        ∧ s'.bsrr = s.bsrr ++ frames (glyph_frames UpperAZ.capital_letters 0))
    ∧ (∃ s', LowerAZ.display_letter i s = some s'
        ∧ s'.bsrr = s.bsrr ++ frames (glyph_frames LowerAZ.letters 0)) := by
  refine ⟨display_capital_letter_clamp i hi s, display_letter_clamp i hi s, ?_, ?_⟩
  · rw [display_capital_letter_clamp i hi s]
    exact display_capital_letter_bsrr 0 (by decide) s
  · rw [display_letter_clamp i hi s]
    exact display_letter_bsrr 0 (by decide) s

/-- Witness for C6: the largest 8-bit index, 255. -/
theorem display_letter_clamps_to_zero_witness :
    23 ≤ 255
    ∧ UpperAZ.display_capital_letter 255 Mcu.reset = UpperAZ.display_capital_letter 0 Mcu.reset
    ∧ LowerAZ.display_letter 255 Mcu.reset = LowerAZ.display_letter 0 Mcu.reset :=
  ⟨by decide, (display_letter_clamps_to_zero 255 (by decide) Mcu.reset).1,
    (display_letter_clamps_to_zero 255 (by decide) Mcu.reset).2.1⟩

/-- C7, counterexample: the index 10 is an 8-bit value above 9, yet `display_digit(10)`
makes no store at all while `display_digit(0)` makes the 400 stores of the glyph of digit 0;
the two calls do not emit the same frames. -/
theorem display_digit_ten_differs_from_zero :
    (9 < 10 ∧ 10 < 256)
    ∧ ZeroNine.display_digit 10 Mcu.reset = some Mcu.reset
    ∧ (ZeroNine.display_digit 10 Mcu.reset).map (fun s => s.bsrr) = some []
    ∧ (ZeroNine.display_digit 0 Mcu.reset).map (fun s => s.bsrr.length) = some 400
    ∧ (ZeroNine.display_digit 10 Mcu.reset).map (fun s => s.bsrr)
        ≠ (ZeroNine.display_digit 0 Mcu.reset).map (fun s => s.bsrr) := by
  have h400 : (ZeroNine.display_digit 0 Mcu.reset).map (fun s => s.bsrr.length) = some 400 := by
    obtain ⟨s', h1, h2⟩ := display_digit_bsrr 0 (by decide) Mcu.reset
    rw [h1, Option.map_some', h2, List.length_append, length_frames]
    rfl
  refine ⟨by decide, rfl, rfl, h400, ?_⟩
  intro h
  have h0 : (ZeroNine.display_digit 10 Mcu.reset).map (fun s => s.bsrr.length) = some 0 := rfl
  have h2 := congrArg (Option.map List.length) h
  simp only [Option.map_map] at h2
  have h3 : (ZeroNine.display_digit 10 Mcu.reset).map (fun s => s.bsrr.length)
      = (ZeroNine.display_digit 0 Mcu.reset).map (fun s => s.bsrr.length) := h2
  rw [h0, h400] at h3
  exact absurd h3 (by decide)

/-- C7, amended: for every index `d` above 9 (in particular every such 8-bit index),
`display_digit(d)` returns at its guard: it makes no store, emits no frame and leaves the
machine state as it was. -/
theorem display_digit_out_of_range_emits_nothing (d : Nat) (hd : 9 < d) (s : Mcu) :
    ZeroNine.display_digit d s = some s
    ∧ (ZeroNine.display_digit d s).map (fun s' => s'.bsrr) = some s.bsrr := by
  rw [display_digit_guard d hd s]
  exact ⟨rfl, rfl⟩

/-- Witness for the amended C7: indices 10 and 255. -/
theorem display_digit_out_of_range_emits_nothing_witness :
    (9 < 10 ∧ ZeroNine.display_digit 10 Mcu.reset = some Mcu.reset)
    ∧ (9 < 255 ∧ ZeroNine.display_digit 255 Mcu.reset = some Mcu.reset) :=
  ⟨⟨by decide, (display_digit_out_of_range_emits_nothing 10 (by decide) Mcu.reset).1⟩,
    ⟨by decide, (display_digit_out_of_range_emits_nothing 255 (by decide) Mcu.reset).1⟩⟩

/-! ## Display sequencer -/

/-- C8: the cursor advance of each main loop. For every 8-bit cursor value `i`, also one
the loop itself never produces such as 255, the next cursor lies in `[0, N)` (N = 10 for
digits, 23 for letters); for `i` in `[0, N)` it is `(i + 1) mod N`, so 9 is followed by 0
for digits and 22 by 0 for letters. -/
theorem cursor_advance_mod (i : Nat) (hi : i < 256) :
    ZeroNine.next_count i < 10
    ∧ UpperAZ.next_letter_idx i < 23
    ∧ LowerAZ.next_letter_idx i < 23
    ∧ (i < 10 → ZeroNine.next_count i = (i + 1) % 10)
    ∧ (i < 23 → UpperAZ.next_letter_idx i = (i + 1) % 23)
    ∧ (i < 23 → LowerAZ.next_letter_idx i = (i + 1) % 23)
    ∧ ZeroNine.next_count 9 = 0
    ∧ UpperAZ.next_letter_idx 22 = 0
    ∧ LowerAZ.next_letter_idx 22 = 0
    ∧ ZeroNine.next_count 255 < 10
    ∧ UpperAZ.next_letter_idx 255 = 0
    ∧ LowerAZ.next_letter_idx 255 = 0 := by
  refine ⟨?_, ?_, ?_, ?_, ?_, ?_, by decide, by decide, by decide, by decide, by decide,
    by decide⟩
  · unfold ZeroNine.next_count; omega
  · unfold UpperAZ.next_letter_idx; simp only; split <;> omega
  · unfold LowerAZ.next_letter_idx; simp only; split <;> omega
  · intro _; unfold ZeroNine.next_count; omega
  · intro _; unfold UpperAZ.next_letter_idx; simp only; split <;> omega
  · intro _; unfold LowerAZ.next_letter_idx; simp only; split <;> omega

/-- Witness for C8: the last letter index 22 wraps to 0, and the cursor 255, where the
8-bit increment wraps, still yields an index in range. -/
theorem cursor_advance_mod_witness :
    (22 < 256 ∧ UpperAZ.next_letter_idx 22 < 23
      ∧ (22 < 23 → UpperAZ.next_letter_idx 22 = (22 + 1) % 23))
    ∧ (255 < 256 ∧ ZeroNine.next_count 255 < 10 ∧ LowerAZ.next_letter_idx 255 < 23) :=
  ⟨⟨by decide, (cursor_advance_mod 22 (by decide)).2.1,
      (cursor_advance_mod 22 (by decide)).2.2.2.2.1⟩,
    ⟨by decide, (cursor_advance_mod 255 (by decide)).1,
      (cursor_advance_mod 255 (by decide)).2.2.1⟩⟩

@[simp] theorem bsrr_nop (s : Mcu) : (nop s).bsrr = s.bsrr := rfl

theorem delay_loop_bsrr (ms : Nat) : ∀ (k i : Nat) (s : Mcu), ms - i = k →
    (ZeroNine.delay_loop ms i s).bsrr = s.bsrr := by
  intro k
  induction k with
  | zero =>
    intro i s h
    rw [ZeroNine.delay_loop, if_neg (by omega)]
  | succ k ih =>
    intro i s h
    rw [ZeroNine.delay_loop, if_pos (by omega), ih (i + 1) (nop s) (by omega), bsrr_nop]

theorem zero_nine_delay_bsrr (ms : Nat) (s : Mcu) : (ZeroNine.delay ms s).bsrr = s.bsrr :=
  delay_loop_bsrr _ _ 0 s rfl

theorem upper_delay_while_bsrr (cycles : Nat) : ∀ s : Mcu,
    (UpperAZ.delay_while cycles s).bsrr = s.bsrr := by
  induction cycles with
  | zero => intro s; rfl
  | succ c ih => intro s; rw [UpperAZ.delay_while, ih, bsrr_nop]

theorem upper_delay_bsrr (ms : Nat) (s : Mcu) : (UpperAZ.delay ms s).bsrr = s.bsrr :=
  upper_delay_while_bsrr _ s

theorem lower_delay_while_bsrr (cycles : Nat) : ∀ s : Mcu,
    (LowerAZ.delay_while cycles s).bsrr = s.bsrr := by
  induction cycles with
  | zero => intro s; rfl
  | succ c ih => intro s; rw [LowerAZ.delay_while, ih, bsrr_nop]

theorem lower_delay_bsrr (ms : Nat) (s : Mcu) : (LowerAZ.delay ms s).bsrr = s.bsrr :=
  lower_delay_while_bsrr _ s

theorem ticks_frames_succ (table : List (List Nat)) (N n : Nat) :
    frames (ticks_frames table N (n + 1))
      = frames (ticks_frames table N n) ++ frames (glyph_frames table (n % N)) := by
  unfold ticks_frames
  rw [List.range_succ, List.flatMap_append, frames_append]
  simp

theorem zero_nine_main_loop_spec (n : Nat) (s : Mcu) :
    ∃ s', ZeroNine.main_loop n 0 s = some (n % 10, s')
      ∧ s'.bsrr = s.bsrr ++ frames (ticks_frames ZeroNine.digits 10 n) := by
  induction n with
  | zero => exact ⟨s, rfl, by simp [ticks_frames, frames_nil]⟩
  | succ n ih =>
    obtain ⟨sn, h1, h2⟩ := ih
    obtain ⟨sd, h3, h4⟩ := display_digit_bsrr (n % 10) (Nat.mod_lt _ (by decide)) sn
    refine ⟨ZeroNine.delay 1000 sd, ?_, ?_⟩
    · rw [ZeroNine.main_loop, h1, Option.some_bind, ZeroNine.main_iter]
      simp only [h3, Option.map_some']
      have : ZeroNine.next_count (n % 10) = (n + 1) % 10 := by
        unfold ZeroNine.next_count; omega
      rw [this]
    · rw [zero_nine_delay_bsrr, h4, h2, ticks_frames_succ, List.append_assoc]

theorem upper_main_loop_spec (n : Nat) (s : Mcu) :
    ∃ s', UpperAZ.main_loop n 0 s = some (n % 23, s')
      ∧ s'.bsrr = s.bsrr ++ frames (ticks_frames UpperAZ.capital_letters 23 n) := by
  induction n with
  | zero => exact ⟨s, rfl, by simp [ticks_frames, frames_nil]⟩
  | succ n ih =>
    obtain ⟨sn, h1, h2⟩ := ih
    obtain ⟨sd, h3, h4⟩ := display_capital_letter_bsrr (n % 23) (Nat.mod_lt _ (by decide)) sn
    refine ⟨UpperAZ.delay 1000 sd, ?_, ?_⟩
    · rw [UpperAZ.main_loop, h1, Option.some_bind, UpperAZ.main_iter]
      simp only [h3, Option.map_some']
      have : UpperAZ.next_letter_idx (n % 23) = (n + 1) % 23 := by
        unfold UpperAZ.next_letter_idx; simp only; split <;> omega
      rw [this]
    · rw [upper_delay_bsrr, h4, h2, ticks_frames_succ, List.append_assoc]

theorem lower_main_loop_spec (n : Nat) (s : Mcu) :
    ∃ s', LowerAZ.main_loop n 0 s = some (n % 23, s')
      ∧ s'.bsrr = s.bsrr ++ frames (ticks_frames LowerAZ.letters 23 n) := by
  induction n with
  | zero => exact ⟨s, rfl, by simp [ticks_frames, frames_nil]⟩
  | succ n ih =>
    obtain ⟨sn, h1, h2⟩ := ih
    obtain ⟨sd, h3, h4⟩ := display_letter_bsrr (n % 23) (Nat.mod_lt _ (by decide)) sn
    refine ⟨LowerAZ.delay 1000 sd, ?_, ?_⟩
    · rw [LowerAZ.main_loop, h1, Option.some_bind, LowerAZ.main_iter]
      simp only [h3, Option.map_some']
      have : LowerAZ.next_letter_idx (n % 23) = (n + 1) % 23 := by
        unfold LowerAZ.next_letter_idx; simp only; split <;> omega
      rw [this]
    · rw [lower_delay_bsrr, h4, h2, ticks_frames_succ, List.append_assoc]

theorem zero_nine_tick (k : Nat) (s : Mcu) :
    ∃ sk sd, ZeroNine.main_loop k 0 s = some (k % 10, sk)
      ∧ ZeroNine.display_digit (k % 10) sk = some sd
      ∧ sd.bsrr = sk.bsrr ++ frames (glyph_frames ZeroNine.digits (k % 10))
      ∧ ZeroNine.main_loop (k + 1) 0 s = some ((k + 1) % 10, ZeroNine.delay 1000 sd)
      ∧ (ZeroNine.delay 1000 sd).bsrr = sd.bsrr := by
  obtain ⟨sk, h1, _⟩ := zero_nine_main_loop_spec k s
  obtain ⟨sd, h3, h4⟩ := display_digit_bsrr (k % 10) (Nat.mod_lt _ (by decide)) sk
  refine ⟨sk, sd, h1, h3, h4, ?_, zero_nine_delay_bsrr _ _⟩
  rw [ZeroNine.main_loop, h1, Option.some_bind, ZeroNine.main_iter]
  simp only [h3, Option.map_some']
  have : ZeroNine.next_count (k % 10) = (k + 1) % 10 := by
    unfold ZeroNine.next_count; omega
  rw [this]

theorem upper_tick (k : Nat) (s : Mcu) :
    ∃ sk sd, UpperAZ.main_loop k 0 s = some (k % 23, sk)
      ∧ UpperAZ.display_capital_letter (k % 23) sk = some sd
      ∧ sd.bsrr = sk.bsrr ++ frames (glyph_frames UpperAZ.capital_letters (k % 23))
      ∧ UpperAZ.main_loop (k + 1) 0 s = some ((k + 1) % 23, UpperAZ.delay 1000 sd)
      ∧ (UpperAZ.delay 1000 sd).bsrr = sd.bsrr := by
  obtain ⟨sk, h1, _⟩ := upper_main_loop_spec k s
  obtain ⟨sd, h3, h4⟩ := display_capital_letter_bsrr (k % 23) (Nat.mod_lt _ (by decide)) sk
  refine ⟨sk, sd, h1, h3, h4, ?_, upper_delay_bsrr _ _⟩
  rw [UpperAZ.main_loop, h1, Option.some_bind, UpperAZ.main_iter]
  simp only [h3, Option.map_some']
  have : UpperAZ.next_letter_idx (k % 23) = (k + 1) % 23 := by
    unfold UpperAZ.next_letter_idx; simp only; split <;> omega
  rw [this]

theorem lower_tick (k : Nat) (s : Mcu) :
    ∃ sk sd, LowerAZ.main_loop k 0 s = some (k % 23, sk)
      ∧ LowerAZ.display_letter (k % 23) sk = some sd
      ∧ sd.bsrr = sk.bsrr ++ frames (glyph_frames LowerAZ.letters (k % 23))
      ∧ LowerAZ.main_loop (k + 1) 0 s = some ((k + 1) % 23, LowerAZ.delay 1000 sd)
      ∧ (LowerAZ.delay 1000 sd).bsrr = sd.bsrr := by
  obtain ⟨sk, h1, _⟩ := lower_main_loop_spec k s
  obtain ⟨sd, h3, h4⟩ := display_letter_bsrr (k % 23) (Nat.mod_lt _ (by decide)) sk
  refine ⟨sk, sd, h1, h3, h4, ?_, lower_delay_bsrr _ _⟩
  rw [LowerAZ.main_loop, h1, Option.some_bind, LowerAZ.main_iter]
  simp only [h3, Option.map_some']
  have : LowerAZ.next_letter_idx (k % 23) = (k + 1) % 23 := by
    unfold LowerAZ.next_letter_idx; simp only; split <;> omega
  rw [this]

/-- C9: in each program, with the cursor started at 0 as `main` does, for every `k` the
state after `k` iterations of the main loop has cursor `k mod N` (N = 10 for digits, 23 for
each letter table); iteration `k + 1` therefore calls the display function with index
`k mod N`, which succeeds and appends exactly the eight frames of glyph `k mod N`, and the
following `delay(1000)` makes no store. In the digit program the first eleven iterations
emit the frames of digits 0, 1, ..., 9 and then 0 again. -/
theorem main_loop_shows_k_mod_n (k : Nat) (s : Mcu) :
    (∃ sk sd, ZeroNine.main_loop k 0 s = some (k % 10, sk)
      ∧ ZeroNine.display_digit (k % 10) sk = some sd
      ∧ sd.bsrr = sk.bsrr ++ frames (glyph_frames ZeroNine.digits (k % 10))
      ∧ ZeroNine.main_loop (k + 1) 0 s = some ((k + 1) % 10, ZeroNine.delay 1000 sd)
      ∧ (ZeroNine.delay 1000 sd).bsrr = sd.bsrr)
    ∧ (∃ sk sd, UpperAZ.main_loop k 0 s = some (k % 23, sk)
      ∧ UpperAZ.display_capital_letter (k % 23) sk = some sd
      ∧ sd.bsrr = sk.bsrr ++ frames (glyph_frames UpperAZ.capital_letters (k % 23))
      ∧ UpperAZ.main_loop (k + 1) 0 s = some ((k + 1) % 23, UpperAZ.delay 1000 sd)
      ∧ (UpperAZ.delay 1000 sd).bsrr = sd.bsrr)
    ∧ (∃ sk sd, LowerAZ.main_loop k 0 s = some (k % 23, sk)
      ∧ LowerAZ.display_letter (k % 23) sk = some sd
      ∧ sd.bsrr = sk.bsrr ++ frames (glyph_frames LowerAZ.letters (k % 23))
      ∧ LowerAZ.main_loop (k + 1) 0 s = some ((k + 1) % 23, LowerAZ.delay 1000 sd)
      ∧ (LowerAZ.delay 1000 sd).bsrr = sd.bsrr)
    ∧ (∃ s11, ZeroNine.main_loop 11 0 s = some (1, s11)
      ∧ s11.bsrr = s.bsrr ++ frames
          (([0, 1, 2, 3, 4, 5, 6, 7, 8, 9, 0] : List Nat).flatMap
            (glyph_frames ZeroNine.digits)))
    ∧ ZeroNine.main k s = ZeroNine.main_loop k 0 (ZeroNine.main_setup s)
    ∧ UpperAZ.main k s = UpperAZ.main_loop k 0 (UpperAZ.main_setup s)
    ∧ LowerAZ.main k s = LowerAZ.main_loop k 0 (LowerAZ.main_setup s) := by
  refine ⟨zero_nine_tick k s, upper_tick k s, lower_tick k s, ?_, rfl, rfl, rfl⟩
  obtain ⟨s11, h1, h2⟩ := zero_nine_main_loop_spec 11 s
  refine ⟨s11, h1, ?_⟩
  rw [h2]
  rfl

/-! ## Chip-select framing -/

theorem monitor_wire_bit (b : Bool) (m : Monitor) (hcs : m.lines.cs = false) :
    (wire_bit b).foldl Monitor.step m
      = { lines := { din := b, cs := false, clk := true }, edges := m.edges + 1,
          intervals := m.intervals, stray := m.stray } := by
  obtain ⟨⟨din, cs, clk⟩, edges, intervals, stray⟩ := m
  simp only at hcs
  subst hcs
  cases b <;> cases din <;> cases clk <;> rfl

theorem monitor_wire_bits (bs : List Bool) : ∀ (m : Monitor), m.lines.cs = false →
    ((bs.flatMap wire_bit).foldl Monitor.step m).lines.cs = false
    ∧ ((bs.flatMap wire_bit).foldl Monitor.step m).edges = m.edges + bs.length
    ∧ ((bs.flatMap wire_bit).foldl Monitor.step m).intervals = m.intervals
    ∧ ((bs.flatMap wire_bit).foldl Monitor.step m).stray = m.stray := by
  induction bs with
  | nil => intro m h; simp [h]
  | cons b bs ih =>
    intro m h
    rw [List.flatMap_cons, List.foldl_append, monitor_wire_bit b m h]
    obtain ⟨h1, h2, h3, h4⟩ := ih ⟨⟨b, false, true⟩, m.edges + 1, m.intervals, m.stray⟩ rfl
    refine ⟨h1, ?_, h3, h4⟩
    rw [h2, List.length_cons]
    simp only
    omega

theorem monitor_wire_byte (v : Nat) (m : Monitor) (hcs : m.lines.cs = false) :
    ((wire_byte v).foldl Monitor.step m).lines.cs = false
    ∧ ((wire_byte v).foldl Monitor.step m).edges = m.edges + 8
    ∧ ((wire_byte v).foldl Monitor.step m).intervals = m.intervals
    ∧ ((wire_byte v).foldl Monitor.step m).stray = m.stray := by
  rw [wire_byte_eq]
  have := monitor_wire_bits ((List.range 8).map (fun k => v.testBit (7 - k))) m hcs
  simpa using this

theorem monitor_select (m : Monitor) (hcs : m.lines.cs = true) :
    (m.step CS_LOW).lines.cs = false ∧ (m.step CS_LOW).edges = 0
    ∧ (m.step CS_LOW).intervals = m.intervals ∧ (m.step CS_LOW).stray = m.stray := by
  obtain ⟨⟨din, cs, clk⟩, edges, intervals, stray⟩ := m
  simp only at hcs
  subst hcs
  exact ⟨rfl, rfl, rfl, rfl⟩

theorem monitor_deselect (m : Monitor) (hcs : m.lines.cs = false) :
    (m.step CS_HIGH).lines.cs = true
    ∧ (m.step CS_HIGH).intervals = m.intervals ++ [m.edges]
    ∧ (m.step CS_HIGH).stray = m.stray := by
  obtain ⟨⟨din, cs, clk⟩, edges, intervals, stray⟩ := m
  simp only at hcs
  subst hcs
  cases clk <;> exact ⟨rfl, rfl, rfl⟩

theorem monitor_frame (reg data : Nat) (m : Monitor) (hcs : m.lines.cs = true) :
    ((frame reg data).foldl Monitor.step m).lines.cs = true
    ∧ ((frame reg data).foldl Monitor.step m).intervals = m.intervals ++ [16]
    ∧ ((frame reg data).foldl Monitor.step m).stray = m.stray := by
  unfold frame
  rw [List.foldl_append, List.foldl_append, List.foldl_append]
  simp only [List.foldl_cons, List.foldl_nil]
  obtain ⟨a1, a2, a3, a4⟩ := monitor_select m hcs
  obtain ⟨b1, b2, b3, b4⟩ := monitor_wire_byte reg (m.step CS_LOW) a1
  obtain ⟨c1, c2, c3, c4⟩ := monitor_wire_byte data _ b1
  obtain ⟨d1, d2, d3⟩ := monitor_deselect _ c1
  refine ⟨d1, ?_, ?_⟩
  · rw [d2, c3, b3, a3, c2, b2, a2]
  · rw [d3, c4, b4, a4]

theorem monitor_frames (cmds : List (Nat × Nat)) : ∀ (m : Monitor), m.lines.cs = true →
    ((frames cmds).foldl Monitor.step m).lines.cs = true
    ∧ ((frames cmds).foldl Monitor.step m).intervals
        = m.intervals ++ List.replicate cmds.length 16
    ∧ ((frames cmds).foldl Monitor.step m).stray = m.stray := by
  induction cmds with
  | nil => intro m h; simp [frames_nil, h]
  | cons c cmds ih =>
    intro m h
    rw [frames_cons, List.foldl_append]
    obtain ⟨a1, a2, a3⟩ := monitor_frame c.1 c.2 m h
    obtain ⟨b1, b2, b3⟩ := ih _ a1
    refine ⟨b1, ?_, ?_⟩
    · rw [b2, a2, List.length_cons, List.replicate_succ, List.append_assoc]
      rfl
    · rw [b3, a3]

theorem framed_frames (cmds : List (Nat × Nat)) (l : Lines) (hcs : l.cs = true) :
    framed l (frames cmds) := by
  obtain ⟨h1, h2, h3⟩ := monitor_frames cmds
    { lines := l, edges := 0, intervals := [], stray := 0 } hcs
  refine ⟨h1, ?_, h3⟩
  intro n hn
  unfold monitor at hn
  rw [h2] at hn
  simp only [List.nil_append] at hn
  exact List.eq_of_mem_replicate hn

theorem zero_nine_call_frames (c : ZeroNine.Call) (s : Mcu) :
    ∃ s' cmds, c.run s = some s' ∧ s'.bsrr = s.bsrr ++ frames cmds := by
  cases c with
  | init => exact ⟨_, _, rfl, zero_nine_init_bsrr s⟩
  | display digit =>
    by_cases hd : 9 < digit
    · exact ⟨s, [], display_digit_guard digit hd s, by simp [frames_nil]⟩
    · obtain ⟨s', h1, h2⟩ := display_digit_bsrr digit (by omega) s
      exact ⟨s', _, h1, h2⟩

theorem upper_call_frames (c : UpperAZ.Call) (s : Mcu) :
    ∃ s' cmds, c.run s = some s' ∧ s'.bsrr = s.bsrr ++ frames cmds := by
  cases c with
  | init => exact ⟨_, _, rfl, upper_init_bsrr s⟩
  | clear => exact ⟨_, _, rfl, upper_clear_bsrr s⟩
  | display i =>
    by_cases hi : 23 ≤ i
    · obtain ⟨s', h1, h2⟩ := display_capital_letter_bsrr 0 (by decide) s
      exact ⟨s', _, (display_capital_letter_clamp i hi s).trans h1, h2⟩
    · obtain ⟨s', h1, h2⟩ := display_capital_letter_bsrr i (by omega) s
      exact ⟨s', _, h1, h2⟩

theorem lower_call_frames (c : LowerAZ.Call) (s : Mcu) :
    ∃ s' cmds, c.run s = some s' ∧ s'.bsrr = s.bsrr ++ frames cmds := by
  cases c with
  | init => exact ⟨_, _, rfl, lower_init_bsrr s⟩
  | clear => exact ⟨_, _, rfl, lower_clear_bsrr s⟩
  | display i =>
    by_cases hi : 23 ≤ i
    · obtain ⟨s', h1, h2⟩ := display_letter_bsrr 0 (by decide) s
      exact ⟨s', _, (display_letter_clamp i hi s).trans h1, h2⟩
    · obtain ⟨s', h1, h2⟩ := display_letter_bsrr i (by omega) s
      exact ⟨s', _, h1, h2⟩

theorem zero_nine_run_calls_frames (calls : List ZeroNine.Call) : ∀ s : Mcu,
    ∃ s' cmds, ZeroNine.run_calls calls s = some s' ∧ s'.bsrr = s.bsrr ++ frames cmds := by
  induction calls with
  | nil => intro s; exact ⟨s, [], rfl, by simp [frames_nil]⟩
  | cons c calls ih =>
    intro s
    obtain ⟨s1, cmds1, h1, h2⟩ := zero_nine_call_frames c s
    obtain ⟨s2, cmds2, h3, h4⟩ := ih s1
    refine ⟨s2, cmds1 ++ cmds2, ?_, ?_⟩
    · rw [ZeroNine.run_calls, h1, Option.some_bind, h3]
    · rw [h4, h2, frames_append, List.append_assoc]

theorem upper_run_calls_frames (calls : List UpperAZ.Call) : ∀ s : Mcu,
    ∃ s' cmds, UpperAZ.run_calls calls s = some s' ∧ s'.bsrr = s.bsrr ++ frames cmds := by
  induction calls with
  | nil => intro s; exact ⟨s, [], rfl, by simp [frames_nil]⟩
  | cons c calls ih =>
    intro s
    obtain ⟨s1, cmds1, h1, h2⟩ := upper_call_frames c s
    obtain ⟨s2, cmds2, h3, h4⟩ := ih s1
    refine ⟨s2, cmds1 ++ cmds2, ?_, ?_⟩
    · rw [UpperAZ.run_calls, h1, Option.some_bind, h3]
    · rw [h4, h2, frames_append, List.append_assoc]

theorem lower_run_calls_frames (calls : List LowerAZ.Call) : ∀ s : Mcu,
    ∃ s' cmds, LowerAZ.run_calls calls s = some s' ∧ s'.bsrr = s.bsrr ++ frames cmds := by
  induction calls with
  | nil => intro s; exact ⟨s, [], rfl, by simp [frames_nil]⟩
  | cons c calls ih =>
    intro s
    obtain ⟨s1, cmds1, h1, h2⟩ := lower_call_frames c s
    obtain ⟨s2, cmds2, h3, h4⟩ := ih s1
    refine ⟨s2, cmds1 ++ cmds2, ?_, ?_⟩
    · rw [LowerAZ.run_calls, h1, Option.some_bind, h3]
    · rw [h4, h2, frames_append, List.append_assoc]

theorem main_pins_cs (l0 : Lines) :
    (l0.replay (ZeroNine.main_pins Mcu.reset).bsrr).cs = true
    ∧ (l0.replay (UpperAZ.main_pins Mcu.reset).bsrr).cs = true
    ∧ (l0.replay (LowerAZ.main_pins Mcu.reset).bsrr).cs = true := by
  obtain ⟨din, cs, clk⟩ := l0
  cases cs <;> exact ⟨rfl, rfl, rfl⟩

/-- The monitor is not vacuous: a clock store outside a frame is stray, and a frame cut
after its first byte closes an interval of 8 rising edges. -/
theorem monitor_detects_violations :
    (monitor { din := false, cs := true, clk := false } [CLK_LOW, CLK_HIGH]).stray = 2
    ∧ (monitor { din := false, cs := true, clk := false }
        ([CS_LOW] ++ wire_byte 0x0C ++ [CS_HIGH])).intervals = [8] := by
  decide

/-- C10: chip-select framing. The three stores with which `main` sets the idle levels
leave chip-select high, whatever the levels were before. Starting from any levels with
chip-select high, every finite sequence of calls of `init_max7219`, `clear_display`
and the display function, with arbitrary arguments, runs to completion, and in the trace
of its stores chip-select ends high, every interval of chip-select low contains exactly
16 rising clock edges, and no clock or data store occurs while chip-select is high. -/
theorem chip_select_framing (l : Lines) (hcs : l.cs = true) :
    (∀ calls : List ZeroNine.Call,
      ∃ s', ZeroNine.run_calls calls Mcu.reset = some s' ∧ framed l s'.bsrr)
    ∧ (∀ calls : List UpperAZ.Call,
      ∃ s', UpperAZ.run_calls calls Mcu.reset = some s' ∧ framed l s'.bsrr)
    ∧ (∀ calls : List LowerAZ.Call,
      ∃ s', LowerAZ.run_calls calls Mcu.reset = some s' ∧ framed l s'.bsrr)
    ∧ (∀ l0 : Lines, (l0.replay (ZeroNine.main_pins Mcu.reset).bsrr).cs = true
        ∧ (l0.replay (UpperAZ.main_pins Mcu.reset).bsrr).cs = true
        ∧ (l0.replay (LowerAZ.main_pins Mcu.reset).bsrr).cs = true)
    ∧ (∀ reg data : Nat,
        (monitor l (ZeroNine.send_cmd reg data Mcu.reset).bsrr).intervals = [16]) := by
  refine ⟨fun calls => ?_, fun calls => ?_, fun calls => ?_, main_pins_cs, fun reg data => ?_⟩
  rotate_left 3
  · rw [ZeroNine.send_cmd_bsrr, bsrr_reset, List.nil_append]
    exact (monitor_frame reg data _ hcs).2.1
  · obtain ⟨s', cmds, h1, h2⟩ := zero_nine_run_calls_frames calls Mcu.reset
    refine ⟨s', h1, ?_⟩
    rw [h2, bsrr_reset, List.nil_append]
    exact framed_frames cmds l hcs
  · obtain ⟨s', cmds, h1, h2⟩ := upper_run_calls_frames calls Mcu.reset
    refine ⟨s', h1, ?_⟩
    rw [h2, bsrr_reset, List.nil_append]
    exact framed_frames cmds l hcs
  · obtain ⟨s', cmds, h1, h2⟩ := lower_run_calls_frames calls Mcu.reset
    refine ⟨s', h1, ?_⟩
    rw [h2, bsrr_reset, List.nil_append]
    exact framed_frames cmds l hcs

/-- Witness for C10: from the levels `main` establishes out of all-low lines, the digit
program initialises the chip, shows digit 7 and is then called with index 200. -/
theorem chip_select_framing_witness :
    (({ din := false, cs := false, clk := false } : Lines).replay
        (ZeroNine.main_pins Mcu.reset).bsrr).cs = true
    ∧ ∃ s', ZeroNine.run_calls [ZeroNine.Call.init, ZeroNine.Call.display 7,
          ZeroNine.Call.display 200] Mcu.reset = some s'
        ∧ framed (({ din := false, cs := false, clk := false } : Lines).replay
            (ZeroNine.main_pins Mcu.reset).bsrr) s'.bsrr :=
  ⟨rfl, (chip_select_framing
      (({ din := false, cs := false, clk := false } : Lines).replay
        (ZeroNine.main_pins Mcu.reset).bsrr) rfl).1
      [ZeroNine.Call.init, ZeroNine.Call.display 7, ZeroNine.Call.display 200]⟩

/-! ## Line levels after a byte -/

theorem range_eight : List.range 8 = [0, 1, 2, 3, 4, 5, 6, 7] := by decide

theorem replay_wire_bit (b : Bool) (l : Lines) :
    (wire_bit b).foldl Lines.store l = { din := b, cs := l.cs, clk := true } := by
  obtain ⟨din, cs, clk⟩ := l
  cases b <;> rfl

theorem replay_wire_byte (v : Nat) (l : Lines) :
    l.replay (wire_byte v) = { din := v.testBit 0, cs := l.cs, clk := true } := by
  unfold Lines.replay
  rw [wire_byte_eq, range_eight]
  simp only [List.map_cons, List.map_nil, List.flatMap_cons, List.flatMap_nil, List.append_nil,
    List.foldl_append, replay_wire_bit]

theorem wire_byte_mem (v w : Nat) (hw : w ∈ wire_byte v) :
    w = CLK_LOW ∨ w = DIN_HIGH ∨ w = DIN_LOW ∨ w = CLK_HIGH := by
  unfold wire_byte at hw
  rw [List.mem_flatMap] at hw
  obtain ⟨k, _, hk⟩ := hw
  unfold wire_bit at hk
  simp only [List.mem_cons, List.mem_singleton, List.not_mem_nil, or_false] at hk
  rcases hk with h | h | h
  · exact Or.inl h
  · split at h
    · exact Or.inr (Or.inl h)
    · exact Or.inr (Or.inr (Or.inl h))
  · exact Or.inr (Or.inr (Or.inr h))

/-- C11: for every value `v` (in particular every 8-bit value) and every prior level of
the three lines, after the stores of `send_byte(v)` the clock line is high, the data line
equals bit 0 of `v` and chip-select has the level it had before; none of the stores of
`send_byte` has a set or reset bit for the chip-select pin. This holds in the three
programs. -/
theorem send_byte_leaves_clock_high (v : Nat) (l : Lines) :
    l.replay (ZeroNine.send_byte v Mcu.reset).bsrr
        = { din := v.testBit 0, cs := l.cs, clk := true }
    ∧ l.replay (UpperAZ.send_byte v Mcu.reset).bsrr
        = { din := v.testBit 0, cs := l.cs, clk := true }
    ∧ l.replay (LowerAZ.send_byte v Mcu.reset).bsrr
        = { din := v.testBit 0, cs := l.cs, clk := true }
    ∧ (∀ w ∈ (ZeroNine.send_byte v Mcu.reset).bsrr,
        w.testBit CS_PIN = false ∧ w.testBit (CS_PIN + 16) = false)
    ∧ (v.testBit 0 = true ↔ v % 2 = 1) := by
  have hz : (ZeroNine.send_byte v Mcu.reset).bsrr = wire_byte v := by
    rw [ZeroNine.send_byte_bsrr, bsrr_reset, List.nil_append]
  refine ⟨?_, ?_, ?_, ?_, by simp⟩
  · rw [hz]; exact replay_wire_byte v l
  · rw [upper_send_byte_eq, hz]; exact replay_wire_byte v l
  · rw [lower_send_byte_eq, hz]; exact replay_wire_byte v l
  · intro w hw
    rw [hz] at hw
    rcases wire_byte_mem v w hw with h | h | h | h <;> subst h <;> exact ⟨rfl, rfl⟩

/-! ## Glyph tables -/

/-- C13: the three glyph tables have the stated shape: `digits` has exactly 10 entries,
`capital_letters` exactly 23 and `letters` exactly 23, and every entry of every table has
exactly 8 rows, each a value in 0..255. -/
theorem glyph_tables_shape :
    ZeroNine.digits.length = 10
    ∧ UpperAZ.capital_letters.length = 23
    ∧ LowerAZ.letters.length = 23
    ∧ (∀ g ∈ ZeroNine.digits, g.length = 8 ∧ ∀ b ∈ g, 0 ≤ b ∧ b ≤ 255)
    ∧ (∀ g ∈ UpperAZ.capital_letters, g.length = 8 ∧ ∀ b ∈ g, 0 ≤ b ∧ b ≤ 255)
    ∧ (∀ g ∈ LowerAZ.letters, g.length = 8 ∧ ∀ b ∈ g, 0 ≤ b ∧ b ≤ 255) := by
  refine ⟨rfl, rfl, rfl, ?_, ?_, ?_⟩ <;> decide

/-- C14: idempotent replay. For every table (N = 10, 23, 23) and every index `i` in
`[0, N)`, the display function called with index `(i + N) mod N` behaves exactly as when
called with `i`, and the stores it appends are the same trace `t` whatever was stored
before: from any two machine states `s` and `s0` both calls succeed and append `t`. -/
theorem display_replay_is_identical (i : Nat) (s s0 : Mcu) :
    (i < 10 → ZeroNine.display_digit ((i + 10) % 10) s = ZeroNine.display_digit i s
      ∧ ∃ t, (∃ s1, ZeroNine.display_digit i s = some s1 ∧ s1.bsrr = s.bsrr ++ t)
        ∧ (∃ s2, ZeroNine.display_digit ((i + 10) % 10) s0 = some s2
            ∧ s2.bsrr = s0.bsrr ++ t))
    ∧ (i < 23 →
      UpperAZ.display_capital_letter ((i + 23) % 23) s = UpperAZ.display_capital_letter i s
      ∧ ∃ t, (∃ s1, UpperAZ.display_capital_letter i s = some s1 ∧ s1.bsrr = s.bsrr ++ t)
        ∧ (∃ s2, UpperAZ.display_capital_letter ((i + 23) % 23) s0 = some s2
            ∧ s2.bsrr = s0.bsrr ++ t))
    ∧ (i < 23 → LowerAZ.display_letter ((i + 23) % 23) s = LowerAZ.display_letter i s
      ∧ ∃ t, (∃ s1, LowerAZ.display_letter i s = some s1 ∧ s1.bsrr = s.bsrr ++ t)
        ∧ (∃ s2, LowerAZ.display_letter ((i + 23) % 23) s0 = some s2
            ∧ s2.bsrr = s0.bsrr ++ t)) := by
  refine ⟨fun hi => ?_, fun hi => ?_, fun hi => ?_⟩
  · have e : (i + 10) % 10 = i := by omega
    rw [e]
    exact ⟨rfl, _, display_digit_bsrr i hi s, display_digit_bsrr i hi s0⟩
  · have e : (i + 23) % 23 = i := by omega
    rw [e]
    exact ⟨rfl, _, display_capital_letter_bsrr i hi s, display_capital_letter_bsrr i hi s0⟩
  · have e : (i + 23) % 23 = i := by omega
    rw [e]
    exact ⟨rfl, _, display_letter_bsrr i hi s, display_letter_bsrr i hi s0⟩

/-- Witness for C14: digit 9, letter Z (index 22) and letter a (index 0), each replayed
after `init_max7219`. -/
theorem display_replay_is_identical_witness :
    (9 < 10 ∧ ZeroNine.display_digit ((9 + 10) % 10) Mcu.reset
        = ZeroNine.display_digit 9 Mcu.reset)
    ∧ (22 < 23 ∧ UpperAZ.display_capital_letter ((22 + 23) % 23) Mcu.reset
        = UpperAZ.display_capital_letter 22 Mcu.reset)
    ∧ (0 < 23 ∧ LowerAZ.display_letter ((0 + 23) % 23) Mcu.reset
        = LowerAZ.display_letter 0 Mcu.reset) :=
  ⟨⟨by decide,
      ((display_replay_is_identical 9 Mcu.reset (ZeroNine.init_max7219 Mcu.reset)).1
        (by decide)).1⟩,
    ⟨by decide,
      ((display_replay_is_identical 22 Mcu.reset (UpperAZ.init_max7219 Mcu.reset)).2.1
        (by decide)).1⟩,
    ⟨by decide,
      ((display_replay_is_identical 0 Mcu.reset (LowerAZ.init_max7219 Mcu.reset)).2.2
        (by decide)).1⟩⟩

/-- C18: glyph lookup is in bounds for every argument (in particular every 8-bit one):
each display function returns a result, so with total indexing no access
`table[idx][row]` it executes falls outside the table; the index it uses is below the
table length and every row number 0..7 is below the length of every entry. -/
theorem display_lookup_in_bounds (i : Nat) (s : Mcu) :
    (∃ s', ZeroNine.display_digit i s = some s')
    ∧ (∃ s', UpperAZ.display_capital_letter i s = some s')
    ∧ (∃ s', LowerAZ.display_letter i s = some s')
    ∧ (¬ i > 9 → i < ZeroNine.digits.length)
    ∧ (if i ≥ 23 then 0 else i) < UpperAZ.capital_letters.length
    ∧ (if i ≥ 23 then 0 else i) < LowerAZ.letters.length
    ∧ (∀ row ∈ List.range 8, ∀ g ∈ ZeroNine.digits, row < g.length)
    ∧ (∀ row ∈ List.range 8, ∀ g ∈ UpperAZ.capital_letters, row < g.length)
    ∧ (∀ row ∈ List.range 8, ∀ g ∈ LowerAZ.letters, row < g.length) := by
  refine ⟨?_, ?_, ?_, ?_, ?_, ?_, by decide, by decide, by decide⟩
  · obtain ⟨s', _, h, _⟩ := zero_nine_call_frames (ZeroNine.Call.display i) s
    exact ⟨s', h⟩
  · obtain ⟨s', _, h, _⟩ := upper_call_frames (UpperAZ.Call.display i) s
    exact ⟨s', h⟩
  · obtain ⟨s', _, h, _⟩ := lower_call_frames (LowerAZ.Call.display i) s
    exact ⟨s', h⟩
  · intro h
    have : ZeroNine.digits.length = 10 := rfl
    omega
  · have : UpperAZ.capital_letters.length = 23 := rfl
    split <;> omega
  · have : LowerAZ.letters.length = 23 := rfl
    split <;> omega

/-! ## The busy-wait -/

@[simp] theorem nops_nop (s : Mcu) : (nop s).nops = s.nops + 1 := rfl

theorem delay_loop_nops (ms : Nat) : ∀ (k i : Nat) (s : Mcu), ms - i = k →
    (ZeroNine.delay_loop ms i s).nops = s.nops + k := by
  intro k
  induction k with
  | zero =>
    intro i s h
    rw [ZeroNine.delay_loop, if_neg (by omega)]
    rfl
  | succ k ih =>
    intro i s h
    rw [ZeroNine.delay_loop, if_pos (by omega), ih (i + 1) (nop s) (by omega), nops_nop]
    omega

theorem zero_nine_delay_nops (ms : Nat) (s : Mcu) :
    (ZeroNine.delay ms s).nops = s.nops + (ms * 4000) % 2 ^ 32 :=
  delay_loop_nops _ _ 0 s rfl

theorem upper_delay_while_nops (cycles : Nat) : ∀ s : Mcu,
    (UpperAZ.delay_while cycles s).nops = s.nops + cycles := by
  induction cycles with
  | zero => intro s; rfl
  | succ c ih => intro s; rw [UpperAZ.delay_while, ih, nops_nop]; omega

theorem upper_delay_nops (ms : Nat) (s : Mcu) :
    (UpperAZ.delay ms s).nops = s.nops + (ms * 4000) % 2 ^ 32 :=
  upper_delay_while_nops _ s

theorem lower_delay_while_nops (cycles : Nat) : ∀ s : Mcu,
    (LowerAZ.delay_while cycles s).nops = s.nops + cycles := by
  induction cycles with
  | zero => intro s; rfl
  | succ c ih => intro s; rw [LowerAZ.delay_while, ih, nops_nop]; omega

theorem lower_delay_nops (ms : Nat) (s : Mcu) :
    (LowerAZ.delay ms s).nops = s.nops + (ms * 4000) % 2 ^ 32 :=
  lower_delay_while_nops _ s

theorem mcu_ext (a b : Mcu) (h1 : a.bsrr = b.bsrr) (h2 : a.nops = b.nops) : a = b := by
  cases a; cases b; simp only at h1 h2; subst h1; subst h2; rfl

/-- C16, counterexample: 1 <= 1073742 are both 32-bit values, yet `delay(1)` executes 4000
no-operation iterations and `delay(1073742)` only 704, because `1073742 * 4000` exceeds
`2^32` and wraps; the same in the three programs. -/
theorem delay_not_monotonic_at_wrap :
    (1 ≤ 1073742 ∧ 1073742 < 2 ^ 32)
    ∧ (ZeroNine.delay 1 Mcu.reset).nops = 4000
    ∧ (ZeroNine.delay 1073742 Mcu.reset).nops = 704
    ∧ (UpperAZ.delay 1 Mcu.reset).nops = 4000
    ∧ (UpperAZ.delay 1073742 Mcu.reset).nops = 704
    ∧ (LowerAZ.delay 1 Mcu.reset).nops = 4000
    ∧ (LowerAZ.delay 1073742 Mcu.reset).nops = 704
    ∧ ¬ ((ZeroNine.delay 1 Mcu.reset).nops ≤ (ZeroNine.delay 1073742 Mcu.reset).nops)
    ∧ ¬ ((UpperAZ.delay 1 Mcu.reset).nops ≤ (UpperAZ.delay 1073742 Mcu.reset).nops)
    ∧ ¬ ((LowerAZ.delay 1 Mcu.reset).nops ≤ (LowerAZ.delay 1073742 Mcu.reset).nops) := by
  simp only [zero_nine_delay_nops, upper_delay_nops, lower_delay_nops]
  decide

/-- C16, amended: the busy-wait is monotonic in the requested duration as long as the
product does not wrap: for all `ms1 <= ms2` with `ms2 * 4000 < 2^32` (that is
`ms2 <= 1073741`), `delay(ms1)` executes at most as many no-operation iterations as
`delay(ms2)`, in each of the three programs and from any machine state. -/
theorem delay_monotonic_below_wrap (ms1 ms2 : Nat) (h : ms1 ≤ ms2)
    (hwrap : ms2 * 4000 < 2 ^ 32) (s : Mcu) :
    (ZeroNine.delay ms1 s).nops - s.nops ≤ (ZeroNine.delay ms2 s).nops - s.nops
    ∧ (UpperAZ.delay ms1 s).nops - s.nops ≤ (UpperAZ.delay ms2 s).nops - s.nops
    ∧ (LowerAZ.delay ms1 s).nops - s.nops ≤ (LowerAZ.delay ms2 s).nops - s.nops
    ∧ (ZeroNine.delay ms1 s).nops - s.nops = ms1 * 4000
    ∧ (ZeroNine.delay ms2 s).nops - s.nops = ms2 * 4000 := by
  simp only [zero_nine_delay_nops, upper_delay_nops, lower_delay_nops]
  have h1 : ms1 * 4000 ≤ ms2 * 4000 := Nat.mul_le_mul_right _ h
  have e1 : (ms1 * 4000) % 2 ^ 32 = ms1 * 4000 := Nat.mod_eq_of_lt (by omega)
  have e2 : (ms2 * 4000) % 2 ^ 32 = ms2 * 4000 := Nat.mod_eq_of_lt hwrap
  rw [e1, e2]
  omega

/-- Witness for the amended C16: half a second against the one-second tick, and the
largest duration that does not wrap. -/
theorem delay_monotonic_below_wrap_witness :
    (500 ≤ 1000 ∧ 1000 * 4000 < 2 ^ 32
      ∧ (ZeroNine.delay 500 Mcu.reset).nops - Mcu.reset.nops
          ≤ (ZeroNine.delay 1000 Mcu.reset).nops - Mcu.reset.nops)
    ∧ (1000 ≤ 1073741 ∧ 1073741 * 4000 < 2 ^ 32
      ∧ (UpperAZ.delay 1000 Mcu.reset).nops - Mcu.reset.nops
          ≤ (UpperAZ.delay 1073741 Mcu.reset).nops - Mcu.reset.nops) :=
  ⟨⟨by decide, by decide,
      (delay_monotonic_below_wrap 500 1000 (by decide) (by decide) Mcu.reset).1⟩,
    ⟨by decide, by decide,
      (delay_monotonic_below_wrap 1000 1073741 (by decide) (by decide) Mcu.reset).2.1⟩⟩

/-- C17: the counting `for` loop of the digit program and the `while (cycles--)` loop of
the two letter programs are equivalent: for every `ms`, including 0, all three `delay`
functions return (they are total), execute exactly `(ms * 4000) mod 2^32` no-operation
iterations, make no store, and so yield the same machine state; `delay(1000)` executes
4,000,000 iterations in every program and `delay(0)` none. -/
theorem delay_variants_equivalent (ms : Nat) (s : Mcu) :
    (ZeroNine.delay ms s).nops = s.nops + (ms * 4000) % 2 ^ 32
    ∧ (UpperAZ.delay ms s).nops = s.nops + (ms * 4000) % 2 ^ 32
    ∧ (LowerAZ.delay ms s).nops = s.nops + (ms * 4000) % 2 ^ 32
    ∧ ZeroNine.delay ms s = UpperAZ.delay ms s
    ∧ UpperAZ.delay ms s = LowerAZ.delay ms s
    ∧ (ZeroNine.delay ms s).bsrr = s.bsrr
    ∧ (ZeroNine.delay 1000 s).nops = s.nops + 4000000
    ∧ (UpperAZ.delay 1000 s).nops = s.nops + 4000000
    ∧ (LowerAZ.delay 1000 s).nops = s.nops + 4000000
    ∧ ZeroNine.delay 0 s = s
    ∧ UpperAZ.delay 0 s = s
    ∧ LowerAZ.delay 0 s = s := by
  refine ⟨zero_nine_delay_nops ms s, upper_delay_nops ms s, lower_delay_nops ms s, ?_, ?_,
    zero_nine_delay_bsrr ms s, ?_, ?_, ?_, ?_, rfl, rfl⟩
  · apply mcu_ext
    · rw [zero_nine_delay_bsrr, upper_delay_bsrr]
    · rw [zero_nine_delay_nops, upper_delay_nops]
  · apply mcu_ext
    · rw [upper_delay_bsrr, lower_delay_bsrr]
    · rw [upper_delay_nops, lower_delay_nops]
  · rw [zero_nine_delay_nops]; norm_num
  · rw [upper_delay_nops]; norm_num
  · rw [lower_delay_nops]; norm_num
  · apply mcu_ext
    · rw [zero_nine_delay_bsrr]
    · rw [zero_nine_delay_nops]; rfl

/-! ## Every store is a single-line store -/

theorem line_masks_act_on_one_line (w : Nat) (hw : w ∈ line_masks) : acts_on_one_line w := by
  simp only [line_masks, List.mem_cons, List.mem_singleton, List.not_mem_nil, or_false] at hw
  rcases hw with h | h | h | h | h | h <;> subst h
  · refine ⟨0, by decide, true, fun _ => rfl, fun q hq hne old => ?_⟩
    interval_cases q <;> first | exact absurd rfl hne | rfl
  · refine ⟨0, by decide, false, fun _ => rfl, fun q hq hne old => ?_⟩
    interval_cases q <;> first | exact absurd rfl hne | rfl
  · refine ⟨1, by decide, true, fun _ => rfl, fun q hq hne old => ?_⟩
    interval_cases q <;> first | exact absurd rfl hne | rfl
  · refine ⟨1, by decide, false, fun _ => rfl, fun q hq hne old => ?_⟩
    interval_cases q <;> first | exact absurd rfl hne | rfl
  · refine ⟨2, by decide, true, fun _ => rfl, fun q hq hne old => ?_⟩
    interval_cases q <;> first | exact absurd rfl hne | rfl
  · refine ⟨2, by decide, false, fun _ => rfl, fun q hq hne old => ?_⟩
    interval_cases q <;> first | exact absurd rfl hne | rfl

theorem wire_byte_masks (v w : Nat) (hw : w ∈ wire_byte v) : w ∈ line_masks := by
  rcases wire_byte_mem v w hw with h | h | h | h <;> subst h <;> decide

theorem frame_masks (reg data w : Nat) (hw : w ∈ frame reg data) : w ∈ line_masks := by
  unfold frame at hw
  simp only [List.mem_append, List.mem_singleton] at hw
  rcases hw with ((h | h) | h) | h
  · subst h; decide
  · exact wire_byte_masks reg w h
  · exact wire_byte_masks data w h
  · subst h; decide

theorem frames_masks (cmds : List (Nat × Nat)) (w : Nat) (hw : w ∈ frames cmds) :
    w ∈ line_masks := by
  unfold frames at hw
  rw [List.mem_flatMap] at hw
  obtain ⟨c, _, hc⟩ := hw
  exact frame_masks c.1 c.2 w hc

/-- C15: every value stored to the GPIOA set/reset register by `send_byte`, `send_cmd`
(any arguments, any of the three programs) and by any sequence of calls of
`init_max7219`, `clear_display` and the display functions (any arguments) is one of the
six single-bit masks `1<<0`, `1<<16`, `1<<1`, `1<<17`, `1<<2`, `1<<18`; each such value
forces exactly one of the lines PA0, PA1, PA2 to a level and leaves every other pin of
port A at its level. -/
theorem stores_are_single_line_masks :
    (∀ v : Nat, ∀ w ∈ (ZeroNine.send_byte v Mcu.reset).bsrr, w ∈ line_masks)
    ∧ (∀ v : Nat, ∀ w ∈ (UpperAZ.send_byte v Mcu.reset).bsrr, w ∈ line_masks)
    ∧ (∀ v : Nat, ∀ w ∈ (LowerAZ.send_byte v Mcu.reset).bsrr, w ∈ line_masks)
    ∧ (∀ reg data : Nat, ∀ w ∈ (ZeroNine.send_cmd reg data Mcu.reset).bsrr, w ∈ line_masks)
    ∧ (∀ reg data : Nat, ∀ w ∈ (UpperAZ.send_cmd reg data Mcu.reset).bsrr, w ∈ line_masks)
    ∧ (∀ reg data : Nat, ∀ w ∈ (LowerAZ.send_cmd reg data Mcu.reset).bsrr, w ∈ line_masks)
    ∧ (∀ calls : List ZeroNine.Call, ∃ s', ZeroNine.run_calls calls Mcu.reset = some s'
        ∧ ∀ w ∈ s'.bsrr, w ∈ line_masks)
    ∧ (∀ calls : List UpperAZ.Call, ∃ s', UpperAZ.run_calls calls Mcu.reset = some s'
        ∧ ∀ w ∈ s'.bsrr, w ∈ line_masks)
    ∧ (∀ calls : List LowerAZ.Call, ∃ s', LowerAZ.run_calls calls Mcu.reset = some s'
        ∧ ∀ w ∈ s'.bsrr, w ∈ line_masks)
    ∧ (∀ w ∈ line_masks, acts_on_one_line w)
    ∧ line_masks = [1, 65536, 2, 131072, 4, 262144] := by
  have hb : ∀ v : Nat, ∀ w ∈ (ZeroNine.send_byte v Mcu.reset).bsrr, w ∈ line_masks := by
    intro v w hw
    rw [ZeroNine.send_byte_bsrr, bsrr_reset, List.nil_append] at hw
    exact wire_byte_masks v w hw
  have hc : ∀ reg data : Nat, ∀ w ∈ (ZeroNine.send_cmd reg data Mcu.reset).bsrr,
      w ∈ line_masks := by
    intro reg data w hw
    rw [ZeroNine.send_cmd_bsrr, bsrr_reset, List.nil_append] at hw
    exact frame_masks reg data w hw
  refine ⟨hb, ?_, ?_, hc, ?_, ?_, fun calls => ?_, fun calls => ?_, fun calls => ?_,
    line_masks_act_on_one_line, rfl⟩
  · rw [upper_send_byte_eq]; exact hb
  · rw [lower_send_byte_eq]; exact hb
  · rw [upper_send_cmd_eq]; exact hc
  · rw [lower_send_cmd_eq]; exact hc
  · obtain ⟨s', cmds, h1, h2⟩ := zero_nine_run_calls_frames calls Mcu.reset
    refine ⟨s', h1, fun w hw => ?_⟩
    rw [h2, bsrr_reset, List.nil_append] at hw
    exact frames_masks cmds w hw
  · obtain ⟨s', cmds, h1, h2⟩ := upper_run_calls_frames calls Mcu.reset
    refine ⟨s', h1, fun w hw => ?_⟩
    rw [h2, bsrr_reset, List.nil_append] at hw
    exact frames_masks cmds w hw
  · obtain ⟨s', cmds, h1, h2⟩ := lower_run_calls_frames calls Mcu.reset
    refine ⟨s', h1, fun w hw => ?_⟩
    rw [h2, bsrr_reset, List.nil_append] at hw
    exact frames_masks cmds w hw

/-! ## What the frames do to the register file -/

theorem device_wire_bit (b : Bool) (d : Device) (hcs : d.lines.cs = false) :
    (wire_bit b).foldl Device.step d
      = { lines := { din := b, cs := false, clk := true }, shift := d.shift ++ [b],
          regs := d.regs } := by
  obtain ⟨⟨din, cs, clk⟩, shift, regs⟩ := d
  simp only at hcs
  subst hcs
  cases b <;> cases din <;> cases clk <;> rfl

theorem device_wire_bits (bs : List Bool) : ∀ (d : Device), d.lines.cs = false →
    ((bs.flatMap wire_bit).foldl Device.step d).lines.cs = false
    ∧ ((bs.flatMap wire_bit).foldl Device.step d).shift = d.shift ++ bs
    ∧ ((bs.flatMap wire_bit).foldl Device.step d).regs = d.regs := by
  induction bs with
  | nil => intro d h; simp [h]
  | cons b bs ih =>
    intro d h
    rw [List.flatMap_cons, List.foldl_append, device_wire_bit b d h]
    obtain ⟨h1, h2, h3⟩ := ih ⟨⟨b, false, true⟩, d.shift ++ [b], d.regs⟩ rfl
    refine ⟨h1, ?_, h3⟩
    rw [h2]
    simp

theorem device_select (d : Device) (hcs : d.lines.cs = true) :
    (d.step CS_LOW).lines.cs = false ∧ (d.step CS_LOW).shift = []
    ∧ (d.step CS_LOW).regs = d.regs := by
  obtain ⟨⟨din, cs, clk⟩, shift, regs⟩ := d
  simp only at hcs
  subst hcs
  exact ⟨rfl, rfl, rfl⟩

theorem device_deselect (d : Device) (hcs : d.lines.cs = false) :
    (d.step CS_HIGH).lines.cs = true
    ∧ (d.step CS_HIGH).regs
        = if d.shift.length = 16 then
            Function.update d.regs (msb_first (d.shift.take 8)) (msb_first (d.shift.drop 8))
          else d.regs := by
  obtain ⟨⟨din, cs, clk⟩, shift, regs⟩ := d
  simp only at hcs
  subst hcs
  exact ⟨rfl, rfl⟩

theorem device_frame (reg data : Nat) (hreg : reg < 256) (hdata : data < 256) (d : Device)
    (hcs : d.lines.cs = true) :
    ((frame reg data).foldl Device.step d).lines.cs = true
    ∧ ((frame reg data).foldl Device.step d).regs = Function.update d.regs reg data := by
  unfold frame
  rw [List.foldl_append, List.foldl_append, List.foldl_append, wire_byte_eq, wire_byte_eq]
  simp only [List.foldl_cons, List.foldl_nil]
  obtain ⟨a1, a2, a3⟩ := device_select d hcs
  obtain ⟨b1, b2, b3⟩ := device_wire_bits ((List.range 8).map (fun k => reg.testBit (7 - k)))
    (d.step CS_LOW) a1
  obtain ⟨c1, c2, c3⟩ := device_wire_bits ((List.range 8).map (fun k => data.testBit (7 - k)))
    _ b1
  obtain ⟨d1, d2⟩ := device_deselect _ c1
  refine ⟨d1, ?_⟩
  have h8 : ((List.range 8).map (fun k => reg.testBit (7 - k))).length = 8 := by simp
  rw [d2, c2, b2, a2, c3, b3, a3, List.nil_append, if_pos (by simp), List.take_left' h8,
    List.drop_left' h8, msb_first_bits reg hreg, msb_first_bits data hdata]

theorem device_frames (cmds : List (Nat × Nat)) : ∀ (d : Device), d.lines.cs = true →
    (∀ c ∈ cmds, c.1 < 256 ∧ c.2 < 256) →
    ((frames cmds).foldl Device.step d).lines.cs = true
    ∧ ((frames cmds).foldl Device.step d).regs = store_frames cmds d.regs := by
  induction cmds with
  | nil => intro d h _; exact ⟨h, rfl⟩
  | cons c cmds ih =>
    intro d h hb
    rw [frames_cons, List.foldl_append]
    obtain ⟨h1, h2⟩ := device_frame c.1 c.2 (hb c (List.mem_cons_self _ _)).1
      (hb c (List.mem_cons_self _ _)).2 d h
    obtain ⟨h3, h4⟩ := ih _ h1 (fun c' hc' => hb c' (List.mem_cons_of_mem _ hc'))
    refine ⟨h3, ?_⟩
    rw [h4, h2]
    rfl

theorem device_regs_frames (cmds : List (Nat × Nat)) (l : Lines) (regs : Nat → Nat)
    (hcs : l.cs = true) (hb : ∀ c ∈ cmds, c.1 < 256 ∧ c.2 < 256) :
    device_regs l regs (frames cmds) = store_frames cmds regs :=
  (device_frames cmds { lines := l, shift := [], regs := regs } hcs hb).2

theorem store_frames_rows (f : Nat → Nat) (regs : Nat → Nat) (n a : Nat) :
    store_frames ((List.range n).map (fun r => (r + 1, f r))) regs a
      = if 1 ≤ a ∧ a ≤ n then f (a - 1) else regs a := by
  induction n with
  | zero =>
    have : ¬ (1 ≤ a ∧ a ≤ 0) := by omega
    rw [if_neg this]
    rfl
  | succ n ih =>
    unfold store_frames at ih ⊢
    rw [List.range_succ, List.map_append, List.foldl_append]
    simp only [List.map_cons, List.map_nil, List.foldl_cons, List.foldl_nil, Function.update]
    by_cases ha : a = n + 1
    · subst ha
      simp
    · simp only [ha, ↓reduceDIte, eq_rec_constant, dite_eq_ite, ite_false]
      rw [ih]
      by_cases h1 : 1 ≤ a ∧ a ≤ n
      · rw [if_pos h1, if_pos (by omega)]
      · rw [if_neg h1, if_neg (by omega)]

theorem clear_cmds_eq :
    [((1 : Nat), (0 : Nat)), (2, 0), (3, 0), (4, 0), (5, 0), (6, 0), (7, 0), (8, 0)]
      = (List.range 8).map (fun r => (r + 1, (fun _ => 0) r)) := by
  decide

theorem store_frames_append (xs ys : List (Nat × Nat)) (regs : Nat → Nat) :
    store_frames (xs ++ ys) regs = store_frames ys (store_frames xs regs) := by
  unfold store_frames
  rw [List.foldl_append]

theorem store_frames_clear (regs : Nat → Nat) (a : Nat) :
    store_frames [(1, 0), (2, 0), (3, 0), (4, 0), (5, 0), (6, 0), (7, 0), (8, 0)] regs a
      = if 1 ≤ a ∧ a ≤ 8 then 0 else regs a := by
  rw [clear_cmds_eq, store_frames_rows]

theorem store_frames_clear_twice (regs : Nat → Nat) :
    store_frames ([(1, 0), (2, 0), (3, 0), (4, 0), (5, 0), (6, 0), (7, 0), (8, 0)]
        ++ [(1, 0), (2, 0), (3, 0), (4, 0), (5, 0), (6, 0), (7, 0), (8, 0)]) regs
      = store_frames [(1, 0), (2, 0), (3, 0), (4, 0), (5, 0), (6, 0), (7, 0), (8, 0)] regs := by
  funext a
  rw [store_frames_append, store_frames_clear, store_frames_clear]
  split <;> rfl

theorem device_regs_clear (l : Lines) (hcs : l.cs = true) (regs : Nat → Nat) :
    device_regs l regs
        (frames [(1, 0), (2, 0), (3, 0), (4, 0), (5, 0), (6, 0), (7, 0), (8, 0)])
      = store_frames [(1, 0), (2, 0), (3, 0), (4, 0), (5, 0), (6, 0), (7, 0), (8, 0)] regs :=
  device_regs_frames _ l regs hcs (by decide)

theorem device_regs_clear_twice (l : Lines) (hcs : l.cs = true) (regs : Nat → Nat) :
    device_regs l regs
        (frames [(1, 0), (2, 0), (3, 0), (4, 0), (5, 0), (6, 0), (7, 0), (8, 0)]
          ++ frames [(1, 0), (2, 0), (3, 0), (4, 0), (5, 0), (6, 0), (7, 0), (8, 0)])
      = store_frames [(1, 0), (2, 0), (3, 0), (4, 0), (5, 0), (6, 0), (7, 0), (8, 0)] regs := by
  rw [← frames_append, device_regs_frames _ l regs hcs (by decide), store_frames_clear_twice]

/-- C12: in both letter programs `clear_display()` appends exactly 8 frames, with
addresses 1, 2, ..., 8 in this order and data 0x00 each. It is idempotent on the device:
for a chip whose chip-select is high and any register file, the stores of two calls in a
row leave the same register file as the stores of one call, namely rows 1..8 zero and
every other register unchanged. -/
theorem clear_display_is_idempotent (l : Lines) (hcs : l.cs = true) (regs : Nat → Nat)
    (s : Mcu) :
    (UpperAZ.clear_display s).bsrr
        = s.bsrr ++ frames [(1, 0), (2, 0), (3, 0), (4, 0), (5, 0), (6, 0), (7, 0), (8, 0)]
    ∧ (LowerAZ.clear_display s).bsrr
        = s.bsrr ++ frames [(1, 0), (2, 0), (3, 0), (4, 0), (5, 0), (6, 0), (7, 0), (8, 0)]
    ∧ device_regs l regs (UpperAZ.clear_display (UpperAZ.clear_display Mcu.reset)).bsrr
        = device_regs l regs (UpperAZ.clear_display Mcu.reset).bsrr
    ∧ device_regs l regs (LowerAZ.clear_display (LowerAZ.clear_display Mcu.reset)).bsrr
        = device_regs l regs (LowerAZ.clear_display Mcu.reset).bsrr
    ∧ (∀ a : Nat, device_regs l regs (UpperAZ.clear_display Mcu.reset).bsrr a
        = if 1 ≤ a ∧ a ≤ 8 then 0 else regs a)
    ∧ (∀ a : Nat, device_regs l regs (LowerAZ.clear_display Mcu.reset).bsrr a
        = if 1 ≤ a ∧ a ≤ 8 then 0 else regs a) := by
  refine ⟨upper_clear_bsrr s, lower_clear_bsrr s, ?_, ?_, fun a => ?_, fun a => ?_⟩
  · rw [upper_clear_bsrr, upper_clear_bsrr, bsrr_reset, List.nil_append,
      device_regs_clear_twice l hcs, device_regs_clear l hcs]
  · rw [lower_clear_bsrr, lower_clear_bsrr, bsrr_reset, List.nil_append,
      device_regs_clear_twice l hcs, device_regs_clear l hcs]
  · rw [upper_clear_bsrr, bsrr_reset, List.nil_append, device_regs_clear l hcs,
      store_frames_clear]
  · rw [lower_clear_bsrr, bsrr_reset, List.nil_append, device_regs_clear l hcs,
      store_frames_clear]

/-- Witness for C12: a chip at the idle levels whose registers all hold 0xFF; after
`clear_display()` row register 3 holds 0 and the intensity register 0x0A still 0xFF. -/
theorem clear_display_is_idempotent_witness :
    ({ din := false, cs := true, clk := false } : Lines).cs = true
    ∧ device_regs { din := false, cs := true, clk := false } (fun _ => 0xFF)
        (LowerAZ.clear_display Mcu.reset).bsrr 3 = (if 1 ≤ 3 ∧ 3 ≤ 8 then 0 else 0xFF)
    ∧ device_regs { din := false, cs := true, clk := false } (fun _ => 0xFF)
        (LowerAZ.clear_display Mcu.reset).bsrr 0x0A
          = (if 1 ≤ 0x0A ∧ 0x0A ≤ 8 then 0 else 0xFF) :=
  ⟨rfl,
    (clear_display_is_idempotent { din := false, cs := true, clk := false } rfl
      (fun _ => 0xFF) Mcu.reset).2.2.2.2.2 3,
    (clear_display_is_idempotent { din := false, cs := true, clk := false } rfl
      (fun _ => 0xFF) Mcu.reset).2.2.2.2.2 0x0A⟩

theorem getD_lt_of_rows (g : List Nat) (hg : ∀ b ∈ g, b < 256) (r : Nat) :
    g.getD r 0 < 256 := by
  rw [List.getD_eq_getElem?_getD]
  cases h : g[r]? with
  | none => exact Nat.zero_lt_succ _
  | some b => exact hg b (List.getElem?_mem h)

theorem glyph_cmds_bytes (g : List Nat) (hg : ∀ b ∈ g, b < 256) :
    ∀ c ∈ (List.range 8).map (fun r => (r + 1, g.getD r 0)), c.1 < 256 ∧ c.2 < 256 := by
  intro c hc
  rw [List.mem_map] at hc
  obtain ⟨r, hr, rfl⟩ := hc
  have : r < 8 := List.mem_range.mp hr
  exact ⟨by simp only; omega, getD_lt_of_rows g hg r⟩

theorem render_regs (table : List (List Nat)) (i : Nat) (g : List Nat)
    (hg : table[i]? = some g) (hrows : ∀ g ∈ table, ∀ b ∈ g, b < 256) (hlen : g.length = 8)
    (l : Lines) (hcs : l.cs = true) (regs : Nat → Nat) :
    (∀ r : Nat, r < 8 →
        g[r]? = some (device_regs l regs (frames (glyph_frames table i)) (r + 1)))
    ∧ (∀ a : Nat, ¬ (1 ≤ a ∧ a ≤ 8) →
        device_regs l regs (frames (glyph_frames table i)) a = regs a) := by
  rw [glyph_frames_of_entry table i g hg,
    device_regs_frames _ l regs hcs (glyph_cmds_bytes g (hrows g (List.getElem?_mem hg)))]
  refine ⟨fun r hr => ?_, fun a ha => ?_⟩
  · rw [store_frames_rows (fun r => g.getD r 0) regs 8 (r + 1), if_pos (by omega)]
    simp only [Nat.add_sub_cancel, List.getD_eq_getElem?_getD]
    rw [List.getElem?_eq_getElem (by omega)]
    rfl
  · rw [store_frames_rows (fun r => g.getD r 0) regs 8 a, if_neg ha]

theorem digits_rows : ∀ g ∈ ZeroNine.digits, ∀ b ∈ g, b < 256 := by decide

theorem capital_letters_rows : ∀ g ∈ UpperAZ.capital_letters, ∀ b ∈ g, b < 256 := by decide

theorem letters_rows : ∀ g ∈ LowerAZ.letters, ∀ b ∈ g, b < 256 := by decide

/-- C19: a render fully overwrites the previous picture without a prior clear. For a chip
whose chip-select is high, any initial register file and any in-range index `i`, after
the stores of the display function for `i` the registers 1..8 hold rows 0..7 of glyph `i`
and every register outside 1..8 (such as decode-mode 0x09, intensity 0x0A, scan-limit
0x0B, shutdown 0x0C and display-test 0x0F) holds what it held before. -/
theorem render_overwrites_rows_only (i : Nat) (l : Lines) (hcs : l.cs = true)
    (regs : Nat → Nat) :
    (i < 10 → ∃ g s', ZeroNine.digits[i]? = some g
      ∧ ZeroNine.display_digit i Mcu.reset = some s'
      ∧ (∀ r : Nat, r < 8 → g[r]? = some (device_regs l regs s'.bsrr (r + 1)))
      ∧ (∀ a : Nat, ¬ (1 ≤ a ∧ a ≤ 8) → device_regs l regs s'.bsrr a = regs a)
      ∧ (∀ a ∈ [REG_DECODE_MODE, REG_INTENSITY, REG_SCAN_LIMIT, REG_SHUTDOWN,
            REG_DISPLAY_TEST], device_regs l regs s'.bsrr a = regs a))
    ∧ (i < 23 → ∃ g s', UpperAZ.capital_letters[i]? = some g
      ∧ UpperAZ.display_capital_letter i Mcu.reset = some s'
      ∧ (∀ r : Nat, r < 8 → g[r]? = some (device_regs l regs s'.bsrr (r + 1)))
      ∧ (∀ a : Nat, ¬ (1 ≤ a ∧ a ≤ 8) → device_regs l regs s'.bsrr a = regs a)
      ∧ (∀ a ∈ [REG_DECODE_MODE, REG_INTENSITY, REG_SCAN_LIMIT, REG_SHUTDOWN,
            REG_DISPLAY_TEST], device_regs l regs s'.bsrr a = regs a))
    ∧ (i < 23 → ∃ g s', LowerAZ.letters[i]? = some g
      ∧ LowerAZ.display_letter i Mcu.reset = some s'
      ∧ (∀ r : Nat, r < 8 → g[r]? = some (device_regs l regs s'.bsrr (r + 1)))
      ∧ (∀ a : Nat, ¬ (1 ≤ a ∧ a ≤ 8) → device_regs l regs s'.bsrr a = regs a)
      ∧ (∀ a ∈ [REG_DECODE_MODE, REG_INTENSITY, REG_SCAN_LIMIT, REG_SHUTDOWN,
            REG_DISPLAY_TEST], device_regs l regs s'.bsrr a = regs a)) := by
  have hout : ∀ a ∈ [REG_DECODE_MODE, REG_INTENSITY, REG_SCAN_LIMIT, REG_SHUTDOWN,
      REG_DISPLAY_TEST], ¬ (1 ≤ a ∧ a ≤ 8) := by decide
  refine ⟨fun hi => ?_, fun hi => ?_, fun hi => ?_⟩
  · obtain ⟨g, hg, hlen⟩ := digits_entry i hi
    obtain ⟨s', h1, h2⟩ := display_digit_bsrr i hi Mcu.reset
    rw [bsrr_reset, List.nil_append] at h2
    obtain ⟨k1, k2⟩ := render_regs ZeroNine.digits i g hg digits_rows hlen l hcs regs
    rw [← h2] at k1 k2
    exact ⟨g, s', hg, h1, k1, k2, fun a ha => k2 a (hout a ha)⟩
  · obtain ⟨g, hg, hlen⟩ := capital_letters_entry i hi
    obtain ⟨s', h1, h2⟩ := display_capital_letter_bsrr i hi Mcu.reset
    rw [bsrr_reset, List.nil_append] at h2
    obtain ⟨k1, k2⟩ := render_regs UpperAZ.capital_letters i g hg capital_letters_rows hlen
      l hcs regs
    rw [← h2] at k1 k2
    exact ⟨g, s', hg, h1, k1, k2, fun a ha => k2 a (hout a ha)⟩
  · obtain ⟨g, hg, hlen⟩ := letters_entry i hi
    obtain ⟨s', h1, h2⟩ := display_letter_bsrr i hi Mcu.reset
    rw [bsrr_reset, List.nil_append] at h2
    obtain ⟨k1, k2⟩ := render_regs LowerAZ.letters i g hg letters_rows hlen l hcs regs
    rw [← h2] at k1 k2
    exact ⟨g, s', hg, h1, k1, k2, fun a ha => k2 a (hout a ha)⟩

/-- Witness for C19: digit 8 rendered over a register file that holds 0xFF everywhere,
seen by a chip at the idle levels. -/
theorem render_overwrites_rows_only_witness :
    (({ din := false, cs := true, clk := false } : Lines).cs = true ∧ 8 < 10)
    ∧ ∃ g s', ZeroNine.digits[8]? = some g
      ∧ ZeroNine.display_digit 8 Mcu.reset = some s'
      ∧ (∀ r : Nat, r < 8 → g[r]? = some
          (device_regs { din := false, cs := true, clk := false } (fun _ => 0xFF)
            s'.bsrr (r + 1)))
      ∧ (∀ a : Nat, ¬ (1 ≤ a ∧ a ≤ 8) →
          device_regs { din := false, cs := true, clk := false } (fun _ => 0xFF) s'.bsrr a
            = (fun _ => 0xFF) a)
      ∧ (∀ a ∈ [REG_DECODE_MODE, REG_INTENSITY, REG_SCAN_LIMIT, REG_SHUTDOWN,
            REG_DISPLAY_TEST],
          device_regs { din := false, cs := true, clk := false } (fun _ => 0xFF) s'.bsrr a
            = (fun _ => 0xFF) a) :=
  ⟨⟨rfl, by decide⟩,
    (render_overwrites_rows_only 8 { din := false, cs := true, clk := false } rfl
      (fun _ => 0xFF)).1 (by decide)⟩

/-! ## The three copies are one core -/

theorem upper_init_eq (s : Mcu) : UpperAZ.init_max7219 s = ZeroNine.init_max7219 s := by
  unfold UpperAZ.init_max7219 ZeroNine.init_max7219
  rw [upper_send_cmd_eq]

/-- C20: the three copies of the driver are one core. `send_byte` and `send_cmd` yield
the same machine state, hence the same GPIO trace, in all three programs for every
argument; `init_max7219` of the digit program and of the uppercase program coincide; and
the trace of `init_max7219` of the lowercase program (which calls `clear_display`) is
that of the other two with the intensity frame 0x0A/0x0A replaced by 0x0A/0x08, all
frames before and after it being the same. -/
theorem three_copies_one_core (s : Mcu) :
    (∀ v : Nat, UpperAZ.send_byte v s = ZeroNine.send_byte v s
      ∧ LowerAZ.send_byte v s = ZeroNine.send_byte v s)
    ∧ (∀ reg data : Nat, UpperAZ.send_cmd reg data s = ZeroNine.send_cmd reg data s
      ∧ LowerAZ.send_cmd reg data s = ZeroNine.send_cmd reg data s)
    ∧ UpperAZ.init_max7219 s = ZeroNine.init_max7219 s
    ∧ (ZeroNine.init_max7219 s).bsrr
        = s.bsrr ++ (frames [(0x09, 0x00), (0x0B, 0x07)] ++ frame 0x0A 0x0A
            ++ frames [(0x0C, 0x01), (0x0F, 0x00), (1, 0), (2, 0), (3, 0), (4, 0), (5, 0),
                (6, 0), (7, 0), (8, 0)])
    ∧ (UpperAZ.init_max7219 s).bsrr
        = s.bsrr ++ (frames [(0x09, 0x00), (0x0B, 0x07)] ++ frame 0x0A 0x0A
            ++ frames [(0x0C, 0x01), (0x0F, 0x00), (1, 0), (2, 0), (3, 0), (4, 0), (5, 0),
                (6, 0), (7, 0), (8, 0)])
    ∧ (LowerAZ.init_max7219 s).bsrr
        = s.bsrr ++ (frames [(0x09, 0x00), (0x0B, 0x07)] ++ frame 0x0A 0x08
            ++ frames [(0x0C, 0x01), (0x0F, 0x00), (1, 0), (2, 0), (3, 0), (4, 0), (5, 0),
                (6, 0), (7, 0), (8, 0)])
    ∧ frame 0x0A 0x0A = [CS_LOW] ++ wire_byte 0x0A ++ wire_byte 0x0A ++ [CS_HIGH]
    ∧ frame 0x0A 0x08 = [CS_LOW] ++ wire_byte 0x0A ++ wire_byte 0x08 ++ [CS_HIGH]
    ∧ wire_byte 0x0A ≠ wire_byte 0x08 := by
  refine ⟨fun v => ?_, fun reg data => ?_, upper_init_eq s, ?_, ?_, ?_, rfl, rfl, by decide⟩
  · rw [upper_send_byte_eq, lower_send_byte_eq]
    exact ⟨rfl, rfl⟩
  · rw [upper_send_cmd_eq, lower_send_cmd_eq]
    exact ⟨rfl, rfl⟩
  · rw [zero_nine_init_bsrr]
    simp only [frames_cons, frames_nil, List.append_assoc, List.append_nil]
  · rw [upper_init_bsrr]
    simp only [frames_cons, frames_nil, List.append_assoc, List.append_nil]
  · rw [lower_init_bsrr]
    simp only [frames_cons, frames_nil, List.append_assoc, List.append_nil]

/-! ## Distinct glyphs -/

theorem digits_distinct : ∀ i < 10, ∀ j < 10, i ≠ j →
    ∃ r, r < 8 ∧ glyph_row ZeroNine.digits i r ≠ glyph_row ZeroNine.digits j r := by
  decide

theorem capital_letters_distinct : ∀ i < 23, ∀ j < 23, i ≠ j →
    ∃ r, r < 8 ∧ glyph_row UpperAZ.capital_letters i r
      ≠ glyph_row UpperAZ.capital_letters j r := by
  decide

theorem letters_distinct : ∀ i < 23, ∀ j < 23, i ≠ j →
    ∃ r, r < 8 ∧ glyph_row LowerAZ.letters i r ≠ glyph_row LowerAZ.letters j r := by
  decide

theorem pictures_differ (table : List (List Nat)) (hrows : ∀ g ∈ table, ∀ b ∈ g, b < 256)
    (i j : Nat) (gi gj : List Nat) (hgi : table[i]? = some gi) (hgj : table[j]? = some gj)
    (hli : gi.length = 8) (hlj : gj.length = 8) (r : Nat) (hr : r < 8)
    (hne : glyph_row table i r ≠ glyph_row table j r)
    (l : Lines) (hcs : l.cs = true) (regs regs' : Nat → Nat) :
    device_regs l regs (frames (glyph_frames table i)) (r + 1)
      ≠ device_regs l regs' (frames (glyph_frames table j)) (r + 1) := by
  intro h
  obtain ⟨k1, _⟩ := render_regs table i gi hgi hrows hli l hcs regs
  obtain ⟨k2, _⟩ := render_regs table j gj hgj hrows hlj l hcs regs'
  apply hne
  unfold glyph_row
  rw [hgi, hgj, Option.some_bind, Option.some_bind, k1 r hr, k2 r hr, h]

theorem glyph_traces_differ (table : List (List Nat))
    (hrows : ∀ g ∈ table, ∀ b ∈ g, b < 256)
    (i j : Nat) (gi gj : List Nat) (hgi : table[i]? = some gi) (hgj : table[j]? = some gj)
    (hli : gi.length = 8) (hlj : gj.length = 8) (r : Nat) (hr : r < 8)
    (hne : glyph_row table i r ≠ glyph_row table j r) :
    frames (glyph_frames table i) ≠ frames (glyph_frames table j) := by
  intro h
  apply pictures_differ table hrows i j gi gj hgi hgj hli hlj r hr hne
    ⟨false, true, false⟩ rfl (fun _ => 0) (fun _ => 0)
  rw [h]

theorem digits_differ (i j : Nat) (hi : i < 10) (hj : j < 10) (hij : i ≠ j) (s : Mcu) :
    (∃ r, r < 8 ∧ glyph_row ZeroNine.digits i r ≠ glyph_row ZeroNine.digits j r)
    ∧ (∃ si sj, ZeroNine.display_digit i s = some si ∧ ZeroNine.display_digit j s = some sj
        ∧ si.bsrr ≠ sj.bsrr)
    ∧ (∀ (l : Lines) (regs regs' : Nat → Nat), l.cs = true → ∃ a, 1 ≤ a ∧ a ≤ 8
        ∧ device_regs l regs (frames (glyph_frames ZeroNine.digits i)) a
          ≠ device_regs l regs' (frames (glyph_frames ZeroNine.digits j)) a) := by
  obtain ⟨r, hr, hne⟩ := digits_distinct i hi j hj hij
  obtain ⟨gi, hgi, hli⟩ := digits_entry i hi
  obtain ⟨gj, hgj, hlj⟩ := digits_entry j hj
  obtain ⟨si, h1, h2⟩ := display_digit_bsrr i hi s
  obtain ⟨sj, h3, h4⟩ := display_digit_bsrr j hj s
  refine ⟨⟨r, hr, hne⟩, ⟨si, sj, h1, h3, ?_⟩, fun l regs regs' hcs => ⟨r + 1, by omega, by omega,
    pictures_differ _ digits_rows i j gi gj hgi hgj hli hlj r hr hne l hcs regs regs'⟩⟩
  rw [h2, h4]
  intro h
  exact glyph_traces_differ _ digits_rows i j gi gj hgi hgj hli hlj r hr hne
    (List.append_cancel_left h)

theorem capital_letters_differ (i j : Nat) (hi : i < 23) (hj : j < 23) (hij : i ≠ j)
    (s : Mcu) :
    (∃ r, r < 8 ∧ glyph_row UpperAZ.capital_letters i r
        ≠ glyph_row UpperAZ.capital_letters j r)
    ∧ (∃ si sj, UpperAZ.display_capital_letter i s = some si
        ∧ UpperAZ.display_capital_letter j s = some sj ∧ si.bsrr ≠ sj.bsrr)
    ∧ (∀ (l : Lines) (regs regs' : Nat → Nat), l.cs = true → ∃ a, 1 ≤ a ∧ a ≤ 8
        ∧ device_regs l regs (frames (glyph_frames UpperAZ.capital_letters i)) a
          ≠ device_regs l regs' (frames (glyph_frames UpperAZ.capital_letters j)) a) := by
  obtain ⟨r, hr, hne⟩ := capital_letters_distinct i hi j hj hij
  obtain ⟨gi, hgi, hli⟩ := capital_letters_entry i hi
  obtain ⟨gj, hgj, hlj⟩ := capital_letters_entry j hj
  obtain ⟨si, h1, h2⟩ := display_capital_letter_bsrr i hi s
  obtain ⟨sj, h3, h4⟩ := display_capital_letter_bsrr j hj s
  refine ⟨⟨r, hr, hne⟩, ⟨si, sj, h1, h3, ?_⟩, fun l regs regs' hcs => ⟨r + 1, by omega, by omega,
    pictures_differ _ capital_letters_rows i j gi gj hgi hgj hli hlj r hr hne l hcs regs
      regs'⟩⟩
  rw [h2, h4]
  intro h
  exact glyph_traces_differ _ capital_letters_rows i j gi gj hgi hgj hli hlj r hr hne
    (List.append_cancel_left h)

theorem letters_differ (i j : Nat) (hi : i < 23) (hj : j < 23) (hij : i ≠ j) (s : Mcu) :
    (∃ r, r < 8 ∧ glyph_row LowerAZ.letters i r ≠ glyph_row LowerAZ.letters j r)
    ∧ (∃ si sj, LowerAZ.display_letter i s = some si ∧ LowerAZ.display_letter j s = some sj
        ∧ si.bsrr ≠ sj.bsrr)
    ∧ (∀ (l : Lines) (regs regs' : Nat → Nat), l.cs = true → ∃ a, 1 ≤ a ∧ a ≤ 8
        ∧ device_regs l regs (frames (glyph_frames LowerAZ.letters i)) a
          ≠ device_regs l regs' (frames (glyph_frames LowerAZ.letters j)) a) := by
  obtain ⟨r, hr, hne⟩ := letters_distinct i hi j hj hij
  obtain ⟨gi, hgi, hli⟩ := letters_entry i hi
  obtain ⟨gj, hgj, hlj⟩ := letters_entry j hj
  obtain ⟨si, h1, h2⟩ := display_letter_bsrr i hi s
  obtain ⟨sj, h3, h4⟩ := display_letter_bsrr j hj s
  refine ⟨⟨r, hr, hne⟩, ⟨si, sj, h1, h3, ?_⟩, fun l regs regs' hcs => ⟨r + 1, by omega, by omega,
    pictures_differ _ letters_rows i j gi gj hgi hgj hli hlj r hr hne l hcs regs regs'⟩⟩
  rw [h2, h4]
  intro h
  exact glyph_traces_differ _ letters_rows i j gi gj hgi hgj hli hlj r hr hne
    (List.append_cancel_left h)

/-- C21: within each glyph table the glyphs are pairwise distinct. For all indices
`i ≠ j` in `[0, N)` of the same table (N = 10 for `digits`, 23 for `capital_letters` and
`letters`) the two bitmaps differ in at least one of their 8 rows, the display function
called with `i` and with `j` from the same state appends different traces, and the chip
ends with a different picture: some row register 1..8 differs, whatever the registers held
before. In particular every tick of each main loop changes the picture: the glyphs of the
consecutive cursor values `k mod N` and `(k + 1) mod N` differ. -/
theorem glyphs_pairwise_distinct (i j : Nat) (hij : i ≠ j) (s : Mcu) :
    (i < 10 → j < 10 →
      (∃ r, r < 8 ∧ glyph_row ZeroNine.digits i r ≠ glyph_row ZeroNine.digits j r)
      ∧ (∃ si sj, ZeroNine.display_digit i s = some si
          ∧ ZeroNine.display_digit j s = some sj ∧ si.bsrr ≠ sj.bsrr)
      ∧ (∀ (l : Lines) (regs regs' : Nat → Nat), l.cs = true → ∃ a, 1 ≤ a ∧ a ≤ 8
          ∧ device_regs l regs (frames (glyph_frames ZeroNine.digits i)) a
            ≠ device_regs l regs' (frames (glyph_frames ZeroNine.digits j)) a))
    ∧ (i < 23 → j < 23 →
      (∃ r, r < 8 ∧ glyph_row UpperAZ.capital_letters i r
          ≠ glyph_row UpperAZ.capital_letters j r)
      ∧ (∃ si sj, UpperAZ.display_capital_letter i s = some si
          ∧ UpperAZ.display_capital_letter j s = some sj ∧ si.bsrr ≠ sj.bsrr)
      ∧ (∀ (l : Lines) (regs regs' : Nat → Nat), l.cs = true → ∃ a, 1 ≤ a ∧ a ≤ 8
          ∧ device_regs l regs (frames (glyph_frames UpperAZ.capital_letters i)) a
            ≠ device_regs l regs' (frames (glyph_frames UpperAZ.capital_letters j)) a))
    ∧ (i < 23 → j < 23 →
      (∃ r, r < 8 ∧ glyph_row LowerAZ.letters i r ≠ glyph_row LowerAZ.letters j r)
      ∧ (∃ si sj, LowerAZ.display_letter i s = some si
          ∧ LowerAZ.display_letter j s = some sj ∧ si.bsrr ≠ sj.bsrr)
      ∧ (∀ (l : Lines) (regs regs' : Nat → Nat), l.cs = true → ∃ a, 1 ≤ a ∧ a ≤ 8
          ∧ device_regs l regs (frames (glyph_frames LowerAZ.letters i)) a
            ≠ device_regs l regs' (frames (glyph_frames LowerAZ.letters j)) a))
    ∧ (∀ k : Nat,
      (∃ r, r < 8 ∧ glyph_row ZeroNine.digits (k % 10) r
          ≠ glyph_row ZeroNine.digits (ZeroNine.next_count (k % 10)) r)
      ∧ (∃ r, r < 8 ∧ glyph_row UpperAZ.capital_letters (k % 23) r
          ≠ glyph_row UpperAZ.capital_letters (UpperAZ.next_letter_idx (k % 23)) r)
      ∧ (∃ r, r < 8 ∧ glyph_row LowerAZ.letters (k % 23) r
          ≠ glyph_row LowerAZ.letters (LowerAZ.next_letter_idx (k % 23)) r)) := by
  refine ⟨fun hi hj => digits_differ i j hi hj hij s,
    fun hi hj => capital_letters_differ i j hi hj hij s,
    fun hi hj => letters_differ i j hi hj hij s, fun k => ⟨?_, ?_, ?_⟩⟩
  · have e : ZeroNine.next_count (k % 10) = (k + 1) % 10 := by
      unfold ZeroNine.next_count; omega
    rw [e]
    exact digits_distinct _ (Nat.mod_lt _ (by decide)) _ (Nat.mod_lt _ (by decide))
      (by omega)
  · have e : UpperAZ.next_letter_idx (k % 23) = (k + 1) % 23 := by
      unfold UpperAZ.next_letter_idx; simp only; split <;> omega
    rw [e]
    exact capital_letters_distinct _ (Nat.mod_lt _ (by decide)) _ (Nat.mod_lt _ (by decide))
      (by omega)
  · have e : LowerAZ.next_letter_idx (k % 23) = (k + 1) % 23 := by
      unfold LowerAZ.next_letter_idx; simp only; split <;> omega
    rw [e]
    exact letters_distinct _ (Nat.mod_lt _ (by decide)) _ (Nat.mod_lt _ (by decide))
      (by omega)

/-- Witness for C21: digits 0 and 8 (which differ only in row 3), capital letters O and
D (indices 14 and 3), small letters a and z (indices 0 and 22). -/
theorem glyphs_pairwise_distinct_witness :
    ((0 : Nat) ≠ 8 ∧ 0 < 10 ∧ 8 < 10
      ∧ ∃ r, r < 8 ∧ glyph_row ZeroNine.digits 0 r ≠ glyph_row ZeroNine.digits 8 r)
    ∧ ((14 : Nat) ≠ 3 ∧ 14 < 23 ∧ 3 < 23
      ∧ ∃ r, r < 8 ∧ glyph_row UpperAZ.capital_letters 14 r
          ≠ glyph_row UpperAZ.capital_letters 3 r)
    ∧ ((0 : Nat) ≠ 22 ∧ 0 < 23 ∧ 22 < 23
      ∧ ∃ si sj, LowerAZ.display_letter 0 Mcu.reset = some si
          ∧ LowerAZ.display_letter 22 Mcu.reset = some sj ∧ si.bsrr ≠ sj.bsrr) :=
  ⟨⟨by decide, by decide, by decide,
      ((glyphs_pairwise_distinct 0 8 (by decide) Mcu.reset).1 (by decide) (by decide)).1⟩,
    ⟨by decide, by decide, by decide,
      ((glyphs_pairwise_distinct 14 3 (by decide) Mcu.reset).2.1 (by decide) (by decide)).1⟩,
    ⟨by decide, by decide, by decide,
      ((glyphs_pairwise_distinct 0 22 (by decide) Mcu.reset).2.2.1 (by decide)
        (by decide)).2.1⟩⟩

end Stm32DotMatrix
